import Mathlib

/-!
Infinispan operator: condition store, stability predicates and derived names.

A shallow embedding of `api/v1/types_util.go` (methods of `*Infinispan`) and the
properties of its condition store, its stability and upgrade predicates and its
name derivation functions, followed by `controllers/cluster_client.go`, the binder of
the administrative client.

Modelling conventions

* A Go `string` is an immutable byte sequence: `GoString` is the list of its byte
  values, `len` is the length of the list, `s[lo:hi]` is `slice`, which has no result
  (the Go runtime panics) when the bounds are out of range.
* `strings.ToLower` and `strings.EqualFold` belong to the Go standard library. They are
  embedded as they act on ASCII input (the ASCII fast path of both functions), which is
  what condition types and Kubernetes object names consist of. For the identity of
  condition types up to the case of any letter, `GetCondition` and `SetCondition` are
  also given over the case functions of the library as a parameter (`CaseFunctions`);
  the embedding with ASCII folding is their instance at `asciiCase`.
* A method with a pointer receiver that mutates the resource returns the new resource
  next to its Go result.
* A Go `error` of `api/v1` is an `Option GoString`: `none` is `nil`, `some msg` an error
  whose text is `msg`. The errors of the client binder wrap their cause and are values
  of `Controllers.GoError`.
* A function of the client binder takes the secret store, the state of the world it may
  reach, and returns it next to its Go result.
-/

namespace V1

/-! ## Strings -/

/-- A Go string, as the sequence of its byte values. -/
abbrev GoString := List Nat

/-- The Go string written as the literal `s` (one byte per ASCII character). -/
def str (s : String) : GoString := s.data.map Char.toNat

/-- Go slice expression `s[lo:hi]` on a string: the bytes from index `lo` up to, not
including, `hi`; no result when `0 ≤ lo ≤ hi ≤ len(s)` fails (run-time panic). -/
def slice (s : GoString) (lo hi : Int) : Option GoString :=
  if 0 ≤ lo ∧ lo ≤ hi ∧ hi ≤ (s.length : Int) then
    some ((s.take hi.toNat).drop lo.toNat)
  else
    none

/-- Lower-case mapping of one ASCII byte: `A`..`Z` (65..90) go to `a`..`z`. -/
def toLowerByte (b : Nat) : Nat :=
  if 65 ≤ b ∧ b ≤ 90 then b + 32 else b

/-- Go `strings.ToLower` on ASCII input. -/
def ToLower (s : GoString) : GoString := s.map toLowerByte

/-- One step of the ASCII loop of Go `strings.EqualFold`: the two bytes are equal, or,
after ordering them as `sr < tr`, `sr` is an upper-case letter and `tr` is its
lower-case form. -/
def foldEqByte (sr tr : Nat) : Bool :=
  if tr = sr then true
  else
    let lo := if tr < sr then tr else sr
    let hi := if tr < sr then sr else tr
    decide (65 ≤ lo ∧ lo ≤ 90 ∧ hi = lo + 97 - 65)

/-- Go `strings.EqualFold` on ASCII input: byte-wise comparison under case folding,
true only when both strings are exhausted together. -/
def EqualFold : GoString → GoString → Bool
  | [], [] => true
  | sr :: s, tr :: t => if foldEqByte sr tr then EqualFold s t else false
  | _, _ => false

/-! ## Data model -/

/-- Go `type ConditionType string`. -/
abbrev ConditionType := GoString

/-- Kubernetes `metav1.ConditionStatus`, a string type. -/
abbrev ConditionStatus := GoString

/-- Kubernetes `metav1.ConditionTrue`. -/
def ConditionTrue : ConditionStatus := str "True"

/-- Kubernetes `metav1.ConditionFalse`. -/
def ConditionFalse : ConditionStatus := str "False"

/-- Kubernetes `metav1.ConditionUnknown`. -/
def ConditionUnknown : ConditionStatus := str "Unknown"

/-- Go struct `InfinispanCondition` (field `Type` is written `Type_`). -/
structure InfinispanCondition where
  Type_ : ConditionType := []
  Status : ConditionStatus := []
  Message : GoString := []
deriving DecidableEq, Repr

/-- Go struct `ExposeSpec`, the field read by the name derivation. -/
structure ExposeSpec where
  Type_ : GoString := []
deriving DecidableEq, Repr

/-- Go struct `InfinispanSiteLocationSpec`. -/
structure InfinispanSiteLocationSpec where
  Name : GoString := []
  Namespace : GoString := []
  ClusterName : GoString := []
deriving DecidableEq, Repr

/-- Go struct `InfinispanSitesLocalSpec`, the field read here. -/
structure InfinispanSitesLocalSpec where
  Name : GoString := []
deriving DecidableEq, Repr

/-- Go struct `InfinispanSitesSpec`. -/
structure InfinispanSitesSpec where
  Local : InfinispanSitesLocalSpec := {}
  Locations : List InfinispanSiteLocationSpec := []
deriving DecidableEq, Repr

/-- Go struct `InfinispanServiceSpec`; `Sites` is a pointer, `none` is `nil`. -/
structure InfinispanServiceSpec where
  Type_ : GoString := []
  Sites : Option InfinispanSitesSpec := none
deriving DecidableEq, Repr

/-- Go struct `InfinispanSpec`; `Expose` is a pointer, `none` is `nil`. -/
structure InfinispanSpec where
  Expose : Option ExposeSpec := none
  Service : InfinispanServiceSpec := {}
deriving DecidableEq, Repr

/-- Go struct `InfinispanStatus`; `ReplicasWantedAtRestart` is an `int32`, only ever
compared with zero here. -/
structure InfinispanStatus where
  Conditions : List InfinispanCondition := []
  StatefulSetName : GoString := []
  ReplicasWantedAtRestart : Int := 0
deriving DecidableEq, Repr

/-- Go struct `Infinispan`, the cluster resource. -/
structure Infinispan where
  Name : GoString := []
  Namespace : GoString := []
  Spec : InfinispanSpec := {}
  Status : InfinispanStatus := {}
deriving DecidableEq, Repr

/-- Constant `MaxRouteObjectNameLength`. -/
def MaxRouteObjectNameLength : Int := 63

/-- Constant `SiteRouteNameSuffix`. -/
def SiteRouteNameSuffix : GoString := str "-route-site"

/-- Modelled from the spec: the `ConditionType` constants are declared in a file that
is not part of the given sources; their values follow the names of the expected
condition map of the specification. -/
def ConditionGracefulShutdown : ConditionType := str "GracefulShutdown"

/-- Modelled from the spec: see `ConditionGracefulShutdown`. -/
def ConditionPrelimChecksPassed : ConditionType := str "PrelimChecksPassed"

/-- Modelled from the spec: see `ConditionGracefulShutdown`. -/
def ConditionUpgrade : ConditionType := str "Upgrade"

/-- Modelled from the spec: see `ConditionGracefulShutdown`. -/
def ConditionStopping : ConditionType := str "Stopping"

/-- Modelled from the spec: see `ConditionGracefulShutdown`. -/
def ConditionWellFormed : ConditionType := str "WellFormed"

/-- Modelled from the spec: the `ExposeType` constant for routes is declared in a file
that is not part of the given sources. -/
def ExposeTypeRoute : GoString := str "Route"

/-! ## Condition store -/

/-- Method `ConditionType.equals`: case-insensitive comparison of two types. -/
def equals (a b : ConditionType) : Bool :=
  EqualFold (ToLower a) (ToLower b)

/-- Loop of `GetCondition`: the first entry whose type equals `condition`. -/
def getLoop (condition : ConditionType) :
    List InfinispanCondition → Option InfinispanCondition
  | [] => none
  | c :: rest => if equals c.Type_ condition then some c else getLoop condition rest

/-- Method `GetCondition`: the first matching entry, or a condition of the requested
type with status `False` when none matches. -/
def Infinispan.GetCondition (ispn : Infinispan) (condition : ConditionType) :
    InfinispanCondition :=
  match getLoop condition ispn.Status.Conditions with
  | some c => c
  | none => { Type_ := condition, Status := ConditionFalse }

/-- Loop of `HasCondition`. -/
def hasLoop (condition : ConditionType) : List InfinispanCondition → Bool
  | [] => false
  | c :: rest => if equals c.Type_ condition then true else hasLoop condition rest

/-- Method `HasCondition`. -/
def Infinispan.HasCondition (ispn : Infinispan) (condition : ConditionType) : Bool :=
  hasLoop condition ispn.Status.Conditions

/-- Body of the matching branch of `SetCondition`: the two guarded assignments on the
entry `c`, with the `changed` flag they leave. -/
def updateEntry (c : InfinispanCondition) (status : ConditionStatus) (message : GoString) :
    Bool × InfinispanCondition :=
  let changed := false
  let r := if c.Status ≠ status then (true, { c with Status := status }) else (changed, c)
  if r.2.Message ≠ message then (true, { r.2 with Message := message }) else r

/-- Loop of `SetCondition`: `some` with the returned flag and the updated sequence when
an entry matches (the loop returns there), `none` when the loop runs to its end. -/
def setLoop (condition : ConditionType) (status : ConditionStatus) (message : GoString) :
    List InfinispanCondition → Option (Bool × List InfinispanCondition)
  | [] => none
  | c :: rest =>
    if equals c.Type_ condition then
      some ((updateEntry c status message).1, (updateEntry c status message).2 :: rest)
    else
      match setLoop condition status message rest with
      | some r => some (r.1, c :: r.2)
      | none => none

/-- Replaces the condition sequence of the resource. -/
def Infinispan.withConditions (ispn : Infinispan) (conds : List InfinispanCondition) :
    Infinispan :=
  { ispn with Status := { ispn.Status with Conditions := conds } }

/-- Method `SetCondition`: updates the first matching entry in place, or appends a new
entry and returns true when none matches. -/
def Infinispan.SetCondition (ispn : Infinispan) (condition : ConditionType)
    (status : ConditionStatus) (message : GoString) : Bool × Infinispan :=
  match setLoop condition status message ispn.Status.Conditions with
  | some r => (r.1, ispn.withConditions r.2)
  | none =>
    (true, ispn.withConditions
      (ispn.Status.Conditions ++
        [{ Type_ := condition, Status := status, Message := message }]))

/-- Loop of `SetConditions`, started with the current value of `changed`. The body is
`changed = changed || ispn.SetCondition(...)`: Go evaluates the right operand of `||`
only when the left one is false. -/
def setConditionsLoop : Bool → Infinispan → List InfinispanCondition → Bool × Infinispan
  | changed, ispn, [] => (changed, ispn)
  | changed, ispn, c :: rest =>
    let r := if changed then (true, ispn) else ispn.SetCondition c.Type_ c.Status c.Message
    setConditionsLoop r.1 r.2 rest

/-- Method `SetConditions`. -/
def Infinispan.SetConditions (ispn : Infinispan) (conds : List InfinispanCondition) :
    Bool × Infinispan :=
  setConditionsLoop false ispn conds

/-- Loop of `RemoveCondition`: `some` of the sequence without the first matching entry,
`none` when no entry matches. -/
def removeLoop (condition : ConditionType) :
    List InfinispanCondition → Option (List InfinispanCondition)
  | [] => none
  | c :: rest =>
    if equals c.Type_ condition then some rest
    else
      match removeLoop condition rest with
      | some r => some (c :: r)
      | none => none

/-- Method `RemoveCondition`. -/
def Infinispan.RemoveCondition (ispn : Infinispan) (condition : ConditionType) :
    Bool × Infinispan :=
  match removeLoop condition ispn.Status.Conditions with
  | some r => (true, ispn.withConditions r)
  | none => (false, ispn)

/-! ## Stability evaluator and upgrade readiness -/

/-- The text of the error of `ExpectConditionStatus` for the entry `key`, `value` and
the condition `c` read for it: the first format when the message of `c` is empty, the
second one (which ends after the message, without a closing quote) otherwise. -/
def mismatchError (key : ConditionType) (c : InfinispanCondition) (value : ConditionStatus) :
    GoString :=
  if c.Message = [] then
    str "key \x27" ++ key ++ str "\x27 has Status \x27" ++ c.Status ++
      str "\x27, expected \x27" ++ value ++ str "\x27"
  else
    str "key \x27" ++ key ++ str "\x27 has Status \x27" ++ c.Status ++
      str "\x27, expected \x27" ++ value ++ str "\x27 Reason \x27" ++ c.Message

/-- Method `ExpectConditionStatus`. The Go map is given as the sequence of its entries
in the order in which the `range` loop visits them (an order the Go runtime is free to
choose); the loop returns at the first entry whose status differs. -/
def Infinispan.ExpectConditionStatus (ispn : Infinispan) :
    List (ConditionType × ConditionStatus) → Option GoString
  | [] => none
  | (key, value) :: rest =>
    if (ispn.GetCondition key).Status ≠ value then
      some (mismatchError key (ispn.GetCondition key) value)
    else
      ispn.ExpectConditionStatus rest

/-- The map literal of `EnsureClusterStability`, in the order of the source text. -/
def expectedConditions : List (ConditionType × ConditionStatus) :=
  [ (ConditionGracefulShutdown, ConditionFalse),
    (ConditionPrelimChecksPassed, ConditionTrue),
    (ConditionUpgrade, ConditionFalse),
    (ConditionStopping, ConditionFalse),
    (ConditionWellFormed, ConditionTrue) ]

/-- Method `EnsureClusterStability`, the map being visited in the order `order`. -/
def Infinispan.EnsureClusterStabilityIn (ispn : Infinispan)
    (order : List (ConditionType × ConditionStatus)) : Option GoString :=
  ispn.ExpectConditionStatus order

/-- Method `EnsureClusterStability`, the map being visited in the order of the source
text. -/
def Infinispan.EnsureClusterStability (ispn : Infinispan) : Option GoString :=
  ispn.EnsureClusterStabilityIn expectedConditions

/-- Method `IsWellFormed`: `EnsureClusterStability() == nil`. -/
def Infinispan.IsWellFormed (ispn : Infinispan) : Bool :=
  ispn.EnsureClusterStability.isNone

/-- Method `NotClusterFormed`. -/
def Infinispan.NotClusterFormed (ispn : Infinispan) (pods replicas : Int) : Bool :=
  let notFormed := !ispn.IsWellFormed
  let notEnoughMembers := decide (pods < replicas)
  notFormed || notEnoughMembers

/-- Method `IsConditionTrue`. -/
def Infinispan.IsConditionTrue (ispn : Infinispan) (name : ConditionType) : Bool :=
  decide ((ispn.GetCondition name).Status = ConditionTrue)

/-- Method `IsUpgradeCondition`. -/
def Infinispan.IsUpgradeCondition (ispn : Infinispan) : Bool :=
  ispn.IsConditionTrue ConditionUpgrade

/-- Method `IsUpgradeNeeded`. The logger argument only receives informational text and
has no part in the result, it is left out. -/
def Infinispan.IsUpgradeNeeded (ispn : Infinispan) : Bool :=
  if ispn.IsUpgradeCondition then
    if (ispn.GetCondition ConditionStopping).Status = ConditionFalse then
      if ispn.Status.ReplicasWantedAtRestart > 0 then
        true
      else
        false
    else
      false
  else
    false

/-! ## Derived names -/

/-- Method `IsExposed`. -/
def Infinispan.IsExposed (ispn : Infinispan) : Bool :=
  match ispn.Spec.Expose with
  | none => false
  | some e => decide (e.Type_ ≠ [])

/-- Method `GetExposeType`; no result when `Spec.Expose` is nil (nil dereference). -/
def Infinispan.GetExposeType (ispn : Infinispan) : Option GoString :=
  match ispn.Spec.Expose with
  | none => none
  | some e => some e.Type_

/-- Method `GetServiceExternalName`; no result when the slice expression panics. The
three operands of `&&` are evaluated from left to right, each only when the ones before
it are true. -/
def Infinispan.GetServiceExternalName (ispn : Infinispan) : Option GoString :=
  let externalServiceName := ispn.Name ++ str "-external"
  if ispn.IsExposed then
    match ispn.GetExposeType with
    | none => none
    | some t =>
      if t = ExposeTypeRoute ∧
          (externalServiceName.length : Int) + (ispn.Namespace.length : Int)
            ≥ MaxRouteObjectNameLength then
        match slice externalServiceName 0
            (MaxRouteObjectNameLength - (ispn.Namespace.length : Int) - 2) with
        | none => none
        | some cut => some (cut ++ str "a")
      else
        some externalServiceName
  else
    some externalServiceName

/-- Method `GetSiteRouteName`; no result when the slice expression panics. -/
def Infinispan.GetSiteRouteName (ispn : Infinispan) : Option GoString :=
  let name := ispn.Name
  let maxNameLength := MaxRouteObjectNameLength - (SiteRouteNameSuffix.length : Int)
  if (name.length : Int) ≥ maxNameLength then
    match slice name 0 (maxNameLength - 1) with
    | none => none
    | some name => some (name ++ SiteRouteNameSuffix)
  else
    some (name ++ SiteRouteNameSuffix)

/-! ## Notions of the specification -/

/-- Two bytes are the same letter up to case: equal, or one is an upper-case ASCII
letter and the other its lower-case form. -/
def SameLetter (a b : Nat) : Prop :=
  a = b ∨ (65 ≤ a ∧ a ≤ 90 ∧ b = a + 32) ∨ (65 ≤ b ∧ b ≤ 90 ∧ a = b + 32)

/-- Two condition types differ only in the case of ASCII letters: the same length, and
at every position the same letter up to case. -/
def DiffersOnlyInCase (t1 t2 : ConditionType) : Prop :=
  List.Forall₂ SameLetter t1 t2

/-- The specification of `SetAll`: `Set` applied for each input condition in order,
every one of them, whatever the earlier calls returned. -/
def SetAllSpec (ispn : Infinispan) (conds : List InfinispanCondition) : Infinispan :=
  conds.foldl (fun s c => (s.SetCondition c.Type_ c.Status c.Message).2) ispn

/-- The opposite value of a status of the expected condition map: `False` for `True`,
`True` for anything else. -/
def opposite (s : ConditionStatus) : ConditionStatus :=
  if s = ConditionTrue then ConditionFalse else ConditionTrue

/-- The uniqueness invariant of the condition set: no two entries have types that are
equal up to case. -/
def UniqueTypes (conds : List InfinispanCondition) : Prop :=
  conds.Pairwise (fun a b => equals a.Type_ b.Type_ = false)

/-- The resources reachable from one with an empty condition set by `SetCondition`,
`SetConditions` and `RemoveCondition`. -/
inductive Reachable : Infinispan → Prop
  | empty (ispn : Infinispan) (h : ispn.Status.Conditions = []) : Reachable ispn
  | set (ispn : Infinispan) (t : ConditionType) (s : ConditionStatus) (m : GoString)
      (h : Reachable ispn) : Reachable (ispn.SetCondition t s m).2
  | setAll (ispn : Infinispan) (conds : List InfinispanCondition)
      (h : Reachable ispn) : Reachable (ispn.SetConditions conds).2
  | remove (ispn : Infinispan) (t : ConditionType)
      (h : Reachable ispn) : Reachable (ispn.RemoveCondition t).2

/-! ## Example resources -/

/-- A resource whose five expected conditions hold. -/
def stableExample : Infinispan :=
  { Name := str "example"
    Status := { Conditions :=
      [ { Type_ := ConditionPrelimChecksPassed, Status := ConditionTrue },
        { Type_ := ConditionWellFormed, Status := ConditionTrue },
        { Type_ := ConditionUpgrade, Status := ConditionFalse } ] } }

/-- A resource in the middle of an upgrade: shutdown done, three replicas wanted. -/
def upgradeExample : Infinispan :=
  { Name := str "example"
    Status := {
      Conditions :=
        [ { Type_ := ConditionUpgrade, Status := ConditionTrue },
          { Type_ := ConditionStopping, Status := ConditionFalse } ]
      ReplicasWantedAtRestart := 3 } }


/-! ## Remote sites -/

/-- A Go `map[string]V`: the value stored under each key, `none` for a key that is
absent. -/
abbrev GoMap (V : Type) := GoString → Option V

/-- Go `m[k] = v`. -/
def GoMap.set {V : Type} (m : GoMap V) (k : GoString) (v : V) : GoMap V :=
  fun key => if key = k then some v else m key

/-- Go `m[k]` for a map of site locations: the zero value for an absent key. -/
def GoMap.get (m : GoMap InfinispanSiteLocationSpec) (k : GoString) :
    InfinispanSiteLocationSpec :=
  match m k with
  | some v => v
  | none => {}

/-- Method `GetName` of the embedded object metadata. -/
def Infinispan.GetName (ispn : Infinispan) : GoString := ispn.Name

/-- Method `GetAdminSecretName`. -/
def Infinispan.GetAdminSecretName (ispn : Infinispan) : GoString :=
  ispn.GetName ++ str "-generated-operator-secret"

/-- Method `GetRemoteSiteLocations`: the locations whose name is not the local one, by
name; no result when `Spec.Service.Sites` is nil (nil dereference). -/
def Infinispan.GetRemoteSiteLocations (ispn : Infinispan) :
    Option (GoMap InfinispanSiteLocationSpec) :=
  match ispn.Spec.Service.Sites with
  | none => none
  | some sites =>
    some (sites.Locations.foldl
      (fun remoteLocations location =>
        if sites.Local.Name ≠ location.Name then
          remoteLocations.set location.Name location
        else
          remoteLocations)
      (fun _ => none))

/-- Method `GetRemoteSiteClusterName`. The helper `consts.GetWithDefault` is declared
outside the given sources and is the parameter `getWithDefault`. -/
def Infinispan.GetRemoteSiteClusterName (getWithDefault : GoString → GoString → GoString)
    (ispn : Infinispan) (locationName : GoString) : Option GoString :=
  match ispn.GetRemoteSiteLocations with
  | none => none
  | some remoteLocations =>
    let remoteLocation := remoteLocations.get locationName
    some (getWithDefault remoteLocation.ClusterName ispn.Name)

/-- Method `GetRemoteSiteRouteName`; no result when the cluster name has none or the
slice expression panics. -/
def Infinispan.GetRemoteSiteRouteName (getWithDefault : GoString → GoString → GoString)
    (ispn : Infinispan) (locationName : GoString) : Option GoString :=
  match ispn.GetRemoteSiteClusterName getWithDefault locationName with
  | none => none
  | some name =>
    let maxNameLength := MaxRouteObjectNameLength - (SiteRouteNameSuffix.length : Int)
    if (name.length : Int) ≥ maxNameLength then
      match slice name 0 (maxNameLength - 1) with
      | none => none
      | some name => some (name ++ SiteRouteNameSuffix)
    else
      some (name ++ SiteRouteNameSuffix)

/-- An instance of the helper `consts.GetWithDefault` for the examples: the value when
it is not empty, the default value otherwise. -/
def exampleGetWithDefault (value defaultValue : GoString) : GoString :=
  if value = [] then defaultValue else value

/-! ## Further notions of the specification -/

/-- The results of the individual calls when `SetCondition` is applied to each
condition of `conds` in order, every one of them, starting from `ispn`. -/
def setAllResults : Infinispan → List InfinispanCondition → List Bool
  | _, [] => []
  | ispn, c :: rest =>
    (ispn.SetCondition c.Type_ c.Status c.Message).1 ::
      setAllResults (ispn.SetCondition c.Type_ c.Status c.Message).2 rest

/-- A resource with a remote site `remote` whose cluster name has 60 bytes. -/
def sitesExample : Infinispan :=
  { Name := str "example",
    Spec := { Service := { Sites := some {
      Local := { Name := str "local" },
      Locations :=
        [ { Name := str "local" },
          { Name := str "remote", ClusterName := List.replicate 60 99 } ] } } } }

/-- A resource whose preliminary checks failed, with the message `busy`. -/
def failedChecksExample : Infinispan :=
  { Name := str "example",
    Status := { Conditions :=
      [ { Type_ := ConditionPrelimChecksPassed, Status := ConditionFalse,
          Message := str "busy" },
        { Type_ := ConditionWellFormed, Status := ConditionTrue } ] } }

/-! ## Workload names and site locations -/

/-- Method `GetStatefulSetName`: the name recorded in the status when it is not empty,
the name of the resource otherwise. -/
def Infinispan.GetStatefulSetName (ispn : Infinispan) : GoString :=
  let statefulSetName := ispn.Status.StatefulSetName
  if statefulSetName ≠ [] then statefulSetName else ispn.Name

/-- Method `GetPingServiceName`. -/
def Infinispan.GetPingServiceName (ispn : Infinispan) : GoString :=
  ispn.GetStatefulSetName ++ str "-ping"

/-- Method `GetConfigName`. -/
def Infinispan.GetConfigName (ispn : Infinispan) : GoString :=
  ispn.GetStatefulSetName ++ str "-configuration"

/-- Go comparison `s < t` of two strings: byte by byte, a proper prefix being smaller. -/
def stringLess : GoString → GoString → Bool
  | _, [] => false
  | [], _ :: _ => true
  | a :: s, b :: t => if a < b then true else if b < a then false else stringLess s t

/-- The order that `sort.Strings` establishes between an element and a later one: the
later one is not smaller. -/
def StringLe (s t : GoString) : Prop := stringLess t s = false

instance : DecidableRel StringLe := fun s t => decEq (stringLess t s) false

/-- Go `sort.Strings` of the standard library: the slice in increasing order. Strings
that compare equal are the same string, so the increasing arrangement of a slice is
unique, and it is computed here by insertion. -/
def sortStrings (l : List GoString) : List GoString :=
  l.insertionSort StringLe

/-- Method `GetSiteLocationsName`; no result when `Spec.Service.Sites` is nil (nil
dereference). -/
def Infinispan.GetSiteLocationsName (ispn : Infinispan) : Option (List GoString) :=
  match ispn.Spec.Service.Sites with
  | none => none
  | some sites =>
    let locations := sites.Locations.foldl
      (fun locations location =>
        if sites.Local.Name = location.Name then locations
        else locations ++ [location.Name])
      []
    let locations := locations ++ [sites.Local.Name]
    some (sortStrings locations)

/-- The resource is exposed with type Route: `Spec.Expose` is set and its type is
`ExposeTypeRoute`. -/
def ExposedAsRoute (ispn : Infinispan) : Prop :=
  ∃ e, ispn.Spec.Expose = some e ∧ e.Type_ = ExposeTypeRoute

/-- The number of times the string `n` occurs in the slice `l`. -/
def occurrences (n : GoString) (l : List GoString) : Nat :=
  l.countP (fun x => decide (x = n))

/-- A resource after a live migration: the workload is named `example-1`. -/
def migratedExample : Infinispan :=
  { Name := str "example",
    Status := { StatefulSetName := str "example-1" } }

/-- A resource with the local site `siteB`, listed twice among its locations, and the
remote sites `siteC`, listed once, and `siteA`, listed twice. -/
def locationsExample : Infinispan :=
  { Name := str "example",
    Spec := { Service := { Sites := some {
      Local := { Name := str "siteB" },
      Locations :=
        [ { Name := str "siteC" }, { Name := str "siteB" }, { Name := str "siteA" },
          { Name := str "siteB" }, { Name := str "siteA" } ] } } } }

/-- A resource named with 60 bytes in the namespace `ns`, exposed with type Route. -/
def routeExample : Infinispan :=
  { Name := List.replicate 60 97,
    Namespace := str "ns",
    Spec := { Expose := some { Type_ := ExposeTypeRoute } } }

/-! ## The condition store over the case functions of the library -/

/-- The case functions of the Go standard library package `strings`: `ToLower` and
`EqualFold`, which the method `equals` calls, and `ToUpper`; they act on every letter of
the Unicode tables that the Go release carries. -/
structure CaseFunctions where
  ToLower : GoString → GoString
  ToUpper : GoString → GoString
  EqualFold : GoString → GoString → Bool

/-- Method `ConditionType.equals`, over the case functions `L` of the library. -/
def equalsWith (L : CaseFunctions) (a b : ConditionType) : Bool :=
  L.EqualFold (L.ToLower a) (L.ToLower b)

/-- Loop of `GetCondition`, over the case functions `L`. -/
def getLoopWith (L : CaseFunctions) (condition : ConditionType) :
    List InfinispanCondition → Option InfinispanCondition
  | [] => none
  | c :: rest =>
    if equalsWith L c.Type_ condition then some c else getLoopWith L condition rest

/-- Method `GetCondition`, over the case functions `L`. -/
def Infinispan.GetConditionWith (ispn : Infinispan) (L : CaseFunctions)
    (condition : ConditionType) : InfinispanCondition :=
  match getLoopWith L condition ispn.Status.Conditions with
  | some c => c
  | none => { Type_ := condition, Status := ConditionFalse }

/-- Loop of `SetCondition`, over the case functions `L`. -/
def setLoopWith (L : CaseFunctions) (condition : ConditionType) (status : ConditionStatus)
    (message : GoString) :
    List InfinispanCondition → Option (Bool × List InfinispanCondition)
  | [] => none
  | c :: rest =>
    if equalsWith L c.Type_ condition then
      some ((updateEntry c status message).1, (updateEntry c status message).2 :: rest)
    else
      match setLoopWith L condition status message rest with
      | some r => some (r.1, c :: r.2)
      | none => none

/-- Method `SetCondition`, over the case functions `L`. -/
def Infinispan.SetConditionWith (ispn : Infinispan) (L : CaseFunctions)
    (condition : ConditionType) (status : ConditionStatus) (message : GoString) :
    Bool × Infinispan :=
  match setLoopWith L condition status message ispn.Status.Conditions with
  | some r => (r.1, ispn.withConditions r.2)
  | none =>
    (true, ispn.withConditions
      (ispn.Status.Conditions ++
        [{ Type_ := condition, Status := status, Message := message }]))

/-- Upper-case mapping of one ASCII byte: `a`..`z` (97..122) go to `A`..`Z`. -/
def toUpperByte (b : Nat) : Nat :=
  if 97 ≤ b ∧ b ≤ 122 then b - 32 else b

/-- Go `strings.ToUpper` on ASCII input. -/
def ToUpper (s : GoString) : GoString := s.map toUpperByte

/-- The case functions as they act on ASCII input, the ones of the embedding above. -/
def asciiCase : CaseFunctions :=
  { ToLower := ToLower, ToUpper := ToUpper, EqualFold := EqualFold }

/-- Loop of `latinLower`; `afterC3` says that the byte before was the lead byte `C3`,
so that this one is the second byte of a Latin-1 letter. -/
def latinLowerFrom : Bool → GoString → GoString
  | _, [] => []
  | true, b :: rest =>
    (if 128 ≤ b ∧ b ≤ 158 ∧ b ≠ 151 then b + 32 else b) :: latinLowerFrom false rest
  | false, b :: rest => toLowerByte b :: latinLowerFrom (decide (b = 195)) rest

/-- Go `strings.ToLower` on a UTF-8 string made of ASCII characters, of the Latin-1
letters U+00C0..U+00DE and U+00E0..U+00FE (bytes `C3 80`..`C3 9E` and `C3 A0`..`C3 BE`)
and of the dotless `ı`, U+0131 (bytes `C4 B1`): `A`..`Z` and the capital Latin-1 letters
go to their small forms (second byte plus 32; the sign `×`, `C3 97`, is not a letter),
everything else is kept, the dotless `ı` included. -/
def latinLower (s : GoString) : GoString := latinLowerFrom false s

/-- The lead byte that the loop of `latinUpper` has just read, if any: `C3`, which it
has written already, or `C4`, which it holds back. -/
inductive Lead where
  | none
  | c3
  | c4
deriving DecidableEq, Repr

/-- Loop of `latinUpper`. -/
def latinUpperFrom : Lead → GoString → GoString
  | .none, [] => []
  | .c3, [] => []
  | .c4, [] => [196]
  | .none, b :: rest =>
    if b = 196 then latinUpperFrom .c4 rest
    else if b = 195 then 195 :: latinUpperFrom .c3 rest
    else toUpperByte b :: latinUpperFrom .none rest
  | .c3, b :: rest =>
    (if 160 ≤ b ∧ b ≤ 190 ∧ b ≠ 183 then b - 32 else b) :: latinUpperFrom .none rest
  | .c4, b :: rest =>
    if b = 177 then 73 :: latinUpperFrom .none rest
    else 196 :: b :: latinUpperFrom .none rest

/-- Go `strings.ToUpper` on the same strings: `a`..`z` and the small Latin-1 letters go
to their capital forms (second byte minus 32; the sign `÷`, `C3 B7`, is not a letter),
and the dotless `ı` goes to `I`; everything else is kept. -/
def latinUpper (s : GoString) : GoString := latinUpperFrom .none s

/-- Go `strings.EqualFold` on the same strings: among these characters the simple case
folding relates a letter with its other case only, and the dotless `ı` with nothing but
itself, so two strings are equal under folding exactly when their lower-case forms are
the same. -/
def latinEqualFold (s t : GoString) : Bool :=
  decide (latinLower s = latinLower t)

/-- The case functions as Go computes them on UTF-8 strings of ASCII characters, Latin-1
letters and the dotless `ı`. -/
def latinCase : CaseFunctions :=
  { ToLower := latinLower, ToUpper := latinUpper, EqualFold := latinEqualFold }

/-- The UTF-8 bytes of the dotless small letter `ı`, U+0131. -/
def dotlessI : GoString := [196, 177]

/-- The UTF-8 bytes of the capital letter `É`, U+00C9. -/
def capitalEAcute : GoString := [195, 137]

/-- The UTF-8 bytes of the small letter `é`, U+00E9. -/
def smallEAcute : GoString := [195, 169]

/-- Two condition types differ only in letter case, the letters being those of the case
functions `L`: putting both in lower case, or both in upper case, gives the same
string. -/
def DiffersOnlyInCaseWith (L : CaseFunctions) (t1 t2 : ConditionType) : Prop :=
  L.ToLower t1 = L.ToLower t2 ∨ L.ToUpper t1 = L.ToUpper t2

/-- Two condition types have the same lower-case form under the case functions `L`. -/
def SameLowerCase (L : CaseFunctions) (t1 t2 : ConditionType) : Prop :=
  L.ToLower t1 = L.ToLower t2

/-- A resource that holds the condition `é` with status False. -/
def accentExample : Infinispan :=
  { Name := str "example",
    Status := { Conditions :=
      [ { Type_ := ConditionUpgrade, Status := ConditionFalse },
        { Type_ := smallEAcute, Status := ConditionFalse, Message := str "old" } ] } }

end V1

namespace Controllers

open V1

/-! ## Administrative client binder (`controllers/cluster_client.go`) -/

/-- A Go error value of the client binder: an error with its text, or an error built by
`fmt.Errorf` with the verb `%w`, which keeps the error it wraps. -/
inductive GoError where
  | leaf (text : GoString)
  | wrap (text : GoString) (cause : GoError)
deriving DecidableEq, Repr

/-- Go method `Error()`: the text of the error. -/
def GoError.Error : GoError → GoString
  | .leaf text => text
  | .wrap text _ => text

/-- Go `errors.Unwrap`: the error wrapped by this one, if any. -/
def GoError.Unwrap : GoError → Option GoError
  | .leaf _ => none
  | .wrap _ cause => some cause

/-- The error itself followed by the errors reached from it by `Unwrap`, the chain that
Go `errors.Is` walks. -/
def GoError.chain : GoError → List GoError
  | .leaf text => [.leaf text]
  | .wrap text cause => .wrap text cause :: cause.chain

/-- Go `fmt.Errorf(format + "%w", err)` for a format without other verbs: the text is
the format followed by the text of `err`, and the error wraps `err`. -/
def errorfW (format : GoString) (err : GoError) : GoError :=
  .wrap (format ++ err.Error) err

/-- Go struct `curl.Credentials`, as the composite literal of `NewCurlClient` fills it. -/
structure Credentials where
  Username : GoString := []
  Password : GoString := []
deriving DecidableEq, Repr

/-- Go struct `curl.Config`, with the fields that the composite literal of
`NewCurlClient` names; `Credentials` is a pointer, `none` is `nil`. -/
structure Config where
  Credentials : Option Credentials := none
  Container : GoString := []
  Podname : GoString := []
  Namespace : GoString := []
  Protocol : GoString := []
  Port : Int := 0
deriving DecidableEq, Repr

/-- The pointer `*kube.Kubernetes`, the handle on the cluster that is passed along. -/
structure Kubernetes where
  ref : Nat := 0
deriving DecidableEq, Repr

/-- Go struct `curl.Client`, with the two fields that `InfinispanForPod` reads. -/
structure Client where
  Config : Config := {}
  Kubernetes : Kubernetes := {}
deriving DecidableEq, Repr

/-- The value of interface type `api.Infinispan` that `client.New` returns: the client
handle, built on the transport client it was given. -/
structure ApiInfinispan where
  HttpClient : Client := {}
deriving DecidableEq, Repr

/-- The constants that the binder takes from declarations outside the given sources:
`consts.DefaultOperatorUser`, `consts.InfinispanAdminPort` and `InfinispanContainer`. -/
structure Constants where
  DefaultOperatorUser : GoString
  InfinispanAdminPort : Int
  InfinispanContainer : GoString
deriving DecidableEq, Repr

/-- The external secret store: the outcome of a lookup of the admin password for a
secret name and a namespace, and the lookups made so far, oldest first. -/
structure SecretStore where
  lookup : GoString → GoString → Except GoError GoString
  calls : List (GoString × GoString) := []

/-- Modelled from the spec: `curl.New`, the transport client factory, is declared
outside the given sources; it builds the client from the configuration and the cluster
handle it is given and performs no lookup. -/
def curlNew (c : Config) (kubernetes : Kubernetes) : Client :=
  { Config := c, Kubernetes := kubernetes }

/-- Modelled from the spec: `client.New` is declared outside the given sources; it
returns the handle that issues administrative calls through the given transport
client. -/
def clientNew (curl : Client) : ApiInfinispan :=
  { HttpClient := curl }

/-- Modelled from the spec: `users.AdminPassword` is declared outside the given sources;
it is one round trip to the secret store for the given secret name and namespace, which
yields the password or fails. The context argument only carries cancellation and is
left out. -/
def AdminPassword (secretName namespace_ : GoString) (store : SecretStore) :
    Except GoError GoString × SecretStore :=
  (store.lookup secretName namespace_,
    { store with calls := store.calls ++ [(secretName, namespace_)] })

/-- Function `NewCurlClient`: the result and the secret store as the call leaves it. -/
def NewCurlClient (consts : Constants) (podName : GoString) (i : Infinispan)
    (kubernetes : Kubernetes) (store : SecretStore) :
    Except GoError Client × SecretStore :=
  let r := AdminPassword i.GetAdminSecretName i.Namespace store
  match r.1 with
  | .error err =>
    (.error (errorfW
      (str "unable to retrieve operator admin identities when creating Curl client: ") err),
      r.2)
  | .ok pass =>
    let curlClient := curlNew
      { Credentials := some { Username := consts.DefaultOperatorUser, Password := pass },
        Container := consts.InfinispanContainer,
        Podname := podName,
        Namespace := i.Namespace,
        Protocol := str "http",
        Port := consts.InfinispanAdminPort } kubernetes
    (.ok curlClient, r.2)

/-- Function `NewInfinispanForPod`: the result and the secret store as the call leaves
it. -/
def NewInfinispanForPod (consts : Constants) (podName : GoString) (i : Infinispan)
    (kubernetes : Kubernetes) (store : SecretStore) :
    Except GoError ApiInfinispan × SecretStore :=
  let r := NewCurlClient consts podName i kubernetes store
  match r.1 with
  | .error err => (.error (errorfW (str "unable to create Infinispan client: ") err), r.2)
  | .ok curl => (.ok (clientNew curl), r.2)

/-- Function `InfinispanForPod`: the handle it returns, next to the client `*c` and the
secret store as the call leaves them. The body copies `c.Config`, assigns `Podname` in
the copy and builds the handle; it assigns nothing in `*c` and calls nothing that
reaches the secret store. -/
def InfinispanForPod (podName : GoString) (c : Client) (store : SecretStore) :
    ApiInfinispan × Client × SecretStore :=
  let cloneConfig := c.Config
  let cloneConfig := { cloneConfig with Podname := podName }
  let curl := curlNew cloneConfig c.Kubernetes
  (clientNew curl, c, store)

/-- The handles obtained by calling `InfinispanForPod` on the client `c` for each member
name of `pods` in turn, and the secret store after the last call. -/
def rebindEach (c : Client) : SecretStore → List GoString → List ApiInfinispan × SecretStore
  | store, [] => ([], store)
  | store, podName :: rest =>
    let r := InfinispanForPod podName c store
    let rs := rebindEach r.2.1 r.2.2 rest
    (r.1 :: rs.1, rs.2)

/-- Values for the constants in the examples. -/
def exampleConstants : Constants :=
  { DefaultOperatorUser := str "operator",
    InfinispanAdminPort := 11223,
    InfinispanContainer := str "infinispan" }

/-- A secret store in which every lookup fails with `NotFound`. -/
def emptyStore : SecretStore :=
  { lookup := fun _ _ => .error (.leaf (str "NotFound")) }

/-- A secret store that holds the password `secret` for the admin secret of
`stableExample` and nothing else. -/
def exampleStore : SecretStore :=
  { lookup := fun secretName namespace_ =>
      if secretName = str "example-generated-operator-secret" ∧ namespace_ = str "ns" then
        .ok (str "secret")
      else
        .error (.leaf (str "NotFound")) }

/-- A client bound to the member `pod-0` in the namespace `ns`, with credentials. -/
def exampleClient : Client :=
  { Config :=
      { Credentials := some { Username := str "operator", Password := str "secret" },
        Container := str "infinispan",
        Podname := str "pod-0",
        Namespace := str "ns",
        Protocol := str "http",
        Port := 11223 } }

/-- The resource `stableExample`, placed in the namespace `ns`. -/
def boundExample : Infinispan :=
  { stableExample with Namespace := str "ns" }

/-- Go struct `corev1.Pod`, the field read by `NewInfinispan`. -/
structure Pod where
  Name : GoString := []
deriving DecidableEq, Repr

/-- Go struct `corev1.PodList`. -/
structure PodList where
  Items : List Pod := []
deriving DecidableEq, Repr

/-- Function `NewInfinispan`; no result when the index expression `podList.Items[0]`
panics (index out of range). The function `PodsCreatedBy` is declared outside the given
sources and is the parameter `podsCreatedBy`, from the namespace, the cluster handle and
the name of the StatefulSet to the pod list or the listing error. -/
def NewInfinispan (consts : Constants)
    (podsCreatedBy : GoString → Kubernetes → GoString → Except GoError PodList)
    (i : Infinispan) (kubernetes : Kubernetes) (store : SecretStore) :
    Option (Except GoError ApiInfinispan × SecretStore) :=
  match podsCreatedBy i.Namespace kubernetes i.GetStatefulSetName with
  | .error err => some (.error err, store)
  | .ok podList =>
    match podList.Items[0]? with
    | none => none
    | some pod => some (NewInfinispanForPod consts pod.Name i kubernetes store)

/-- A pod listing that succeeds with no pod. -/
def noPods : GoString → Kubernetes → GoString → Except GoError PodList :=
  fun _ _ _ => .ok { Items := [] }

/-- A pod listing that succeeds with the pods `pod-0` and `pod-1`. -/
def twoPods : GoString → Kubernetes → GoString → Except GoError PodList :=
  fun _ _ _ => .ok { Items := [{ Name := str "pod-0" }, { Name := str "pod-1" }] }

/-- A pod listing that fails. -/
def failingPods : GoString → Kubernetes → GoString → Except GoError PodList :=
  fun _ _ _ => .error (.leaf (str "Forbidden"))

end Controllers

namespace V1

/-! ## Case-insensitive comparison -/

theorem toLowerByte_not_upper (b : Nat) : ¬ (65 ≤ toLowerByte b ∧ toLowerByte b ≤ 90) := by
  unfold toLowerByte
  split <;> omega

theorem toLowerByte_idem (b : Nat) : toLowerByte (toLowerByte b) = toLowerByte b := by
  unfold toLowerByte
  by_cases h : 65 ≤ b ∧ b ≤ 90
  · have h2 : ¬ (65 ≤ b + 32 ∧ b + 32 ≤ 90) := by omega
    rw [if_pos h, if_neg h2]
  · rw [if_neg h, if_neg h]

theorem foldEqByte_of_not_upper (x y : Nat) (hx : ¬ (65 ≤ x ∧ x ≤ 90))
    (hy : ¬ (65 ≤ y ∧ y ≤ 90)) : foldEqByte x y = true ↔ x = y := by
  unfold foldEqByte
  by_cases h : y = x
  · simp [h]
  · simp only [h, if_false, decide_eq_true_eq]
    constructor
    · intro hh
      split at hh <;> omega
    · intro hh
      omega

theorem EqualFold_of_not_upper :
    ∀ (s t : GoString), (∀ x ∈ s, ¬ (65 ≤ x ∧ x ≤ 90)) → (∀ y ∈ t, ¬ (65 ≤ y ∧ y ≤ 90)) →
      (EqualFold s t = true ↔ s = t)
  | [], [], _, _ => by simp [EqualFold]
  | [], _ :: _, _, _ => by simp [EqualFold]
  | _ :: _, [], _, _ => by simp [EqualFold]
  | x :: s, y :: t, hs, ht => by
    have hx := hs x (List.mem_cons_self x s)
    have hy := ht y (List.mem_cons_self y t)
    have ih := EqualFold_of_not_upper s t
      (fun a ha => hs a (List.mem_cons_of_mem x ha))
      (fun a ha => ht a (List.mem_cons_of_mem y ha))
    have hb := foldEqByte_of_not_upper x y hx hy
    by_cases hxy : x = y
    · have : foldEqByte x y = true := hb.2 hxy
      subst hxy
      simp [EqualFold, this, ih]
    · have : foldEqByte x y = false := by
        cases hf : foldEqByte x y
        · rfl
        · exact absurd (hb.1 hf) hxy
      simp [EqualFold, this, hxy]

theorem ToLower_not_upper (s : GoString) : ∀ x ∈ ToLower s, ¬ (65 ≤ x ∧ x ≤ 90) := by
  intro x hx
  unfold ToLower at hx
  rcases List.mem_map.1 hx with ⟨b, _, rfl⟩
  exact toLowerByte_not_upper b

/-- The comparison `equals` holds exactly when both types have the same lower-case form. -/
theorem equals_iff (a b : ConditionType) : equals a b = true ↔ ToLower a = ToLower b := by
  unfold equals
  exact EqualFold_of_not_upper _ _ (ToLower_not_upper a) (ToLower_not_upper b)

theorem equals_refl (a : ConditionType) : equals a a = true :=
  (equals_iff a a).2 rfl

theorem equals_comm (a b : ConditionType) : equals a b = equals b a := by
  apply Bool.eq_iff_iff.2
  rw [equals_iff, equals_iff]
  exact eq_comm

theorem equals_congr_right {a b : ConditionType} (h : equals a b = true) (c : ConditionType) :
    equals c a = equals c b := by
  apply Bool.eq_iff_iff.2
  rw [equals_iff] at h
  rw [equals_iff, equals_iff, h]

theorem equals_congr_left {a b : ConditionType} (h : equals a b = true) (c : ConditionType) :
    equals a c = equals b c := by
  rw [equals_comm a c, equals_comm b c]
  exact equals_congr_right h c

theorem sameLetter_toLowerByte {a b : Nat} (h : SameLetter a b) :
    toLowerByte a = toLowerByte b := by
  unfold toLowerByte
  rcases h with h | h | h
  · rw [h]
  · split <;> split <;> omega
  · split <;> split <;> omega

theorem equals_of_differsOnlyInCase {t1 t2 : ConditionType} (h : DiffersOnlyInCase t1 t2) :
    equals t1 t2 = true := by
  rw [equals_iff]
  unfold DiffersOnlyInCase at h
  unfold ToLower
  induction h with
  | nil => rfl
  | cons hab _ ih => simp [sameLetter_toLowerByte hab, ih]


/-! ## The loops of the condition store -/

theorem withConditions_conditions (ispn : Infinispan) (l : List InfinispanCondition) :
    (ispn.withConditions l).Status.Conditions = l := rfl

theorem updateEntry_snd (c : InfinispanCondition) (s : ConditionStatus) (m : GoString) :
    (updateEntry c s m).2 = { Type_ := c.Type_, Status := s, Message := m } := by
  cases c with
  | mk ty st msg =>
    unfold updateEntry
    by_cases h1 : st = s <;> by_cases h2 : msg = m <;> simp [h1, h2]

theorem updateEntry_fst (c : InfinispanCondition) (s : ConditionStatus) (m : GoString) :
    (updateEntry c s m).1 = true ↔ (c.Status ≠ s ∨ c.Message ≠ m) := by
  cases c with
  | mk ty st msg =>
    unfold updateEntry
    by_cases h1 : st = s <;> by_cases h2 : msg = m <;> simp [h1, h2]

theorem updateEntry_fst_false (c : InfinispanCondition) (s : ConditionStatus) (m : GoString)
    (hs : c.Status = s) (hm : c.Message = m) : (updateEntry c s m).1 = false := by
  cases h : (updateEntry c s m).1
  · rfl
  · rcases (updateEntry_fst c s m).1 h with h1 | h1
    · exact absurd hs h1
    · exact absurd hm h1

theorem getLoop_congr {t1 t2 : ConditionType} (h : equals t1 t2 = true) :
    ∀ l : List InfinispanCondition, getLoop t1 l = getLoop t2 l
  | [] => rfl
  | c :: rest => by
    simp only [getLoop, equals_congr_right h c.Type_, getLoop_congr h rest]

theorem hasLoop_congr {t1 t2 : ConditionType} (h : equals t1 t2 = true) :
    ∀ l : List InfinispanCondition, hasLoop t1 l = hasLoop t2 l
  | [] => rfl
  | c :: rest => by
    simp only [hasLoop, equals_congr_right h c.Type_, hasLoop_congr h rest]

theorem hasLoop_eq_isSome (t : ConditionType) :
    ∀ l : List InfinispanCondition, hasLoop t l = (getLoop t l).isSome
  | [] => rfl
  | c :: rest => by
    by_cases h : equals c.Type_ t = true
    · simp [hasLoop, getLoop, h]
    · simp [hasLoop, getLoop, h, hasLoop_eq_isSome t rest]

theorem setLoop_eq_none (t : ConditionType) (s : ConditionStatus) (m : GoString) :
    ∀ l : List InfinispanCondition, setLoop t s m l = none ↔ getLoop t l = none
  | [] => by simp [setLoop, getLoop]
  | c :: rest => by
    by_cases h : equals c.Type_ t = true
    · simp [setLoop, getLoop, h]
    · have ih := setLoop_eq_none t s m rest
      simp only [setLoop, getLoop, h, if_false, Bool.false_eq_true]
      cases hr : setLoop t s m rest with
      | none => simpa using ih.1 hr
      | some r =>
        simp only [false_iff, reduceCtorEq]
        intro hg
        rw [ih.2 hg] at hr
        cases hr

/-- When an entry matches, the loop of `SetCondition` rewrites the first matching entry
to the new status and message and leaves every other entry, and the type, as they
were; the flag it returns says whether that entry had another status or message. -/
theorem setLoop_some (t : ConditionType) (s : ConditionStatus) (m : GoString) :
    ∀ (l : List InfinispanCondition) (c : InfinispanCondition), getLoop t l = some c →
      ∃ r, setLoop t s m l = some r ∧
        getLoop t r.2 = some { Type_ := c.Type_, Status := s, Message := m } ∧
        (r.1 = true ↔ (c.Status ≠ s ∨ c.Message ≠ m)) ∧
        (r.1 = true ↔ r.2 ≠ l) ∧
        r.2.map (fun e => e.Type_) = l.map (fun e => e.Type_)
  | [], c, h => by simp [getLoop] at h
  | d :: rest, c, h => by
    by_cases hd : equals d.Type_ t = true
    · simp only [getLoop, hd, if_true, Option.some.injEq] at h
      subst h
      refine ⟨((updateEntry d s m).1, (updateEntry d s m).2 :: rest), ?_, ?_, ?_, ?_, ?_⟩
      · simp [setLoop, hd]
      · simp [getLoop, updateEntry_snd, hd]
      · exact updateEntry_fst d s m
      · rw [updateEntry_fst, updateEntry_snd]
        cases d with
        | mk ty st msg =>
          simp only [ne_eq, List.cons.injEq, and_true, InfinispanCondition.mk.injEq,
            true_and, not_and_or, eq_comm]
      · simp [updateEntry_snd]
    · simp only [getLoop, hd, if_false, Bool.false_eq_true] at h
      obtain ⟨r, hr, hg, hc, hne, hty⟩ := setLoop_some t s m rest c h
      refine ⟨(r.1, d :: r.2), ?_, ?_, hc, ?_, ?_⟩
      · simp [setLoop, hd, hr]
      · simp [getLoop, hd, hg]
      · simp [hne]
      · simp [hty]

theorem getLoop_append_of_none (t : ConditionType) (n : InfinispanCondition) :
    ∀ l : List InfinispanCondition, getLoop t l = none →
      getLoop t (l ++ [n]) = if equals n.Type_ t then some n else none
  | [], _ => by simp [getLoop]
  | c :: rest, h => by
    by_cases hc : equals c.Type_ t = true
    · simp [getLoop, hc] at h
    · simp only [getLoop, hc, if_false, Bool.false_eq_true] at h
      simp [getLoop, hc, getLoop_append_of_none t n rest h]

/-- After `SetCondition(t, s, m)` the first entry matching `t` carries `s` and `m`. -/
theorem getLoop_SetCondition (ispn : Infinispan) (t : ConditionType) (s : ConditionStatus)
    (m : GoString) :
    ∃ c, getLoop t (ispn.SetCondition t s m).2.Status.Conditions = some c ∧
      c.Status = s ∧ c.Message = m := by
  unfold Infinispan.SetCondition
  cases hg : getLoop t ispn.Status.Conditions with
  | none =>
    rw [(setLoop_eq_none t s m _).2 hg]
    refine ⟨{ Type_ := t, Status := s, Message := m }, ?_, rfl, rfl⟩
    simp only [withConditions_conditions]
    rw [getLoop_append_of_none t _ _ hg]
    simp [equals_refl]
  | some c =>
    obtain ⟨r, hr, hget, _⟩ := setLoop_some t s m _ c hg
    rw [hr]
    exact ⟨_, hget, rfl, rfl⟩


/-! ## Claims on `SetCondition` -/

/-- Case-insensitive identity on the embedding with ASCII folding: for every resource,
status `S`, message `M` and condition types `t1`, `t2` that differ only in the case of
the letters `A`..`Z`, `GetCondition(t2)` after `SetCondition(t1, S, M)` returns a
condition with status `S` and message `M`. -/
theorem setCondition_getCondition_caseInsensitive (ispn : Infinispan)
    (t1 t2 : ConditionType) (S : ConditionStatus) (M : GoString)
    (h : DiffersOnlyInCase t1 t2) :
    ((ispn.SetCondition t1 S M).2.GetCondition t2).Status = S ∧
      ((ispn.SetCondition t1 S M).2.GetCondition t2).Message = M := by
  obtain ⟨c, hget, hs, hm⟩ := getLoop_SetCondition ispn t1 S M
  have heq : equals t1 t2 = true := equals_of_differsOnlyInCase h
  unfold Infinispan.GetCondition
  rw [← getLoop_congr heq, hget]
  exact ⟨hs, hm⟩

/-- An instance of the identity on ASCII letters: `SetCondition("Ready", True, "ok")` on
a resource that holds the condition `ready`, read back as `READY`. -/
theorem setCondition_getCondition_caseInsensitive_witness :
    DiffersOnlyInCase (str "Ready") (str "READY") ∧
      ((({ Status := { Conditions :=
            [{ Type_ := str "ready", Status := ConditionFalse, Message := str "old" }] } } :
          Infinispan).SetCondition (str "Ready") ConditionTrue (str "ok")).2.GetCondition
        (str "READY")).Status = ConditionTrue ∧
      ((({ Status := { Conditions :=
            [{ Type_ := str "ready", Status := ConditionFalse, Message := str "old" }] } } :
          Infinispan).SetCondition (str "Ready") ConditionTrue (str "ok")).2.GetCondition
        (str "READY")).Message = str "ok" :=
  have hd : DiffersOnlyInCase (str "Ready") (str "READY") := by
    simp [DiffersOnlyInCase, SameLetter, str]
  ⟨hd, setCondition_getCondition_caseInsensitive _ _ _ _ _ hd⟩

/-- C8 (idempotence of `SetCondition`): for every resource and arguments, a second call
with the same arguments right after the first returns `changed = false` and leaves the
resource, hence its condition set, exactly as the first call left it. -/
theorem setCondition_idempotent (ispn : Infinispan) (t : ConditionType)
    (s : ConditionStatus) (m : GoString) :
    ((ispn.SetCondition t s m).2.SetCondition t s m).1 = false ∧
      ((ispn.SetCondition t s m).2.SetCondition t s m).2 = (ispn.SetCondition t s m).2 := by
  obtain ⟨c, hget, hs, hm⟩ := getLoop_SetCondition ispn t s m
  generalize (ispn.SetCondition t s m).2 = first at hget
  obtain ⟨r, hr, _, hc, hne, _⟩ := setLoop_some t s m _ c hget
  have h1 : r.1 = false := by
    cases h : r.1
    · rfl
    · rcases hc.1 h with h2 | h2
      · exact absurd hs h2
      · exact absurd hm h2
  have h2 : r.2 = first.Status.Conditions := by
    by_contra hcon
    rw [hne.2 hcon] at h1
    cases h1
  unfold Infinispan.SetCondition
  rw [hr]
  simp only [h1, h2, Infinispan.withConditions, and_self]

/-- C9 (the changed flag of `SetCondition` is exact): the call returns true iff the
condition sequence after it differs from the sequence before it, false iff the sequence
is unchanged; and it returns true exactly when no entry matched (one is appended) or
the matching entry had a different status or a different message. -/
theorem setCondition_changed_exact (ispn : Infinispan) (t : ConditionType)
    (s : ConditionStatus) (m : GoString) :
    ((ispn.SetCondition t s m).1 = true ↔
        (ispn.SetCondition t s m).2.Status.Conditions ≠ ispn.Status.Conditions) ∧
      ((ispn.SetCondition t s m).1 = false ↔
        (ispn.SetCondition t s m).2.Status.Conditions = ispn.Status.Conditions) ∧
      ((ispn.SetCondition t s m).1 = true ↔
        (ispn.HasCondition t = false ∨ (ispn.GetCondition t).Status ≠ s ∨
          (ispn.GetCondition t).Message ≠ m)) ∧
      (ispn.HasCondition t = false →
        (ispn.SetCondition t s m).2.Status.Conditions =
          ispn.Status.Conditions ++ [{ Type_ := t, Status := s, Message := m }]) := by
  have key : ((ispn.SetCondition t s m).1 = true ↔
        (ispn.SetCondition t s m).2.Status.Conditions ≠ ispn.Status.Conditions) ∧
      ((ispn.SetCondition t s m).1 = true ↔
        (ispn.HasCondition t = false ∨ (ispn.GetCondition t).Status ≠ s ∨
          (ispn.GetCondition t).Message ≠ m)) ∧
      (ispn.HasCondition t = false →
        (ispn.SetCondition t s m).2.Status.Conditions =
          ispn.Status.Conditions ++ [{ Type_ := t, Status := s, Message := m }]) := by
    unfold Infinispan.SetCondition Infinispan.HasCondition Infinispan.GetCondition
    rw [hasLoop_eq_isSome]
    cases hg : getLoop t ispn.Status.Conditions with
    | none =>
      rw [(setLoop_eq_none t s m _).2 hg]
      simp [withConditions_conditions]
    | some c =>
      obtain ⟨r, hr, _, hc, hne, _⟩ := setLoop_some t s m _ c hg
      rw [hr]
      simp only [withConditions_conditions, Option.isSome_some, Bool.true_eq_false,
        false_or, false_implies, and_true]
      exact ⟨hne, hc⟩
  refine ⟨key.1, ?_, key.2.1, key.2.2⟩
  rw [← not_iff_not, Bool.not_eq_false]
  exact key.1


/-! ## The uniqueness invariant -/

theorem uniqueTypes_iff_types (l : List InfinispanCondition) :
    UniqueTypes l ↔
      (l.map (fun e => e.Type_)).Pairwise (fun a b => equals a b = false) := by
  unfold UniqueTypes
  rw [List.pairwise_map]

theorem getLoop_none_forall (t : ConditionType) :
    ∀ l : List InfinispanCondition, getLoop t l = none → ∀ c ∈ l, equals c.Type_ t = false
  | [], _, c, hc => by simp at hc
  | d :: rest, h, c, hc => by
    by_cases hd : equals d.Type_ t = true
    · simp [getLoop, hd] at h
    · simp only [getLoop, hd, if_false, Bool.false_eq_true] at h
      rcases List.mem_cons.1 hc with rfl | hmem
      · simpa using hd
      · exact getLoop_none_forall t rest h c hmem

theorem removeLoop_sublist (t : ConditionType) :
    ∀ (l r : List InfinispanCondition), removeLoop t l = some r → r.Sublist l
  | [], r, h => by simp [removeLoop] at h
  | c :: rest, r, h => by
    by_cases hc : equals c.Type_ t = true
    · simp only [removeLoop, hc, if_true, Option.some.injEq] at h
      subst h
      exact List.sublist_cons_self c rest
    · simp only [removeLoop, hc, if_false, Bool.false_eq_true] at h
      cases hr : removeLoop t rest with
      | none => simp [hr] at h
      | some r2 =>
        simp only [hr, Option.some.injEq] at h
        subst h
        exact (removeLoop_sublist t rest r2 hr).cons₂ c

theorem uniqueTypes_SetCondition (ispn : Infinispan) (t : ConditionType)
    (s : ConditionStatus) (m : GoString) (h : UniqueTypes ispn.Status.Conditions) :
    UniqueTypes (ispn.SetCondition t s m).2.Status.Conditions := by
  unfold Infinispan.SetCondition
  cases hg : getLoop t ispn.Status.Conditions with
  | none =>
    rw [(setLoop_eq_none t s m _).2 hg]
    simp only [withConditions_conditions]
    unfold UniqueTypes at h ⊢
    rw [List.pairwise_append]
    refine ⟨h, List.pairwise_singleton _ _, ?_⟩
    intro a ha b hb
    rw [List.mem_singleton] at hb
    subst hb
    exact getLoop_none_forall t _ hg a ha
  | some c =>
    obtain ⟨r, hr, _, _, _, hty⟩ := setLoop_some t s m _ c hg
    rw [hr]
    simp only [withConditions_conditions]
    rw [uniqueTypes_iff_types, hty, ← uniqueTypes_iff_types]
    exact h

theorem uniqueTypes_setConditionsLoop :
    ∀ (conds : List InfinispanCondition) (changed : Bool) (ispn : Infinispan),
      UniqueTypes ispn.Status.Conditions →
      UniqueTypes (setConditionsLoop changed ispn conds).2.Status.Conditions
  | [], _, _, h => h
  | c :: rest, changed, ispn, h => by
    unfold setConditionsLoop
    cases changed with
    | true => exact uniqueTypes_setConditionsLoop rest _ _ h
    | false =>
      exact uniqueTypes_setConditionsLoop rest _ _
        (uniqueTypes_SetCondition ispn c.Type_ c.Status c.Message h)

theorem uniqueTypes_RemoveCondition (ispn : Infinispan) (t : ConditionType)
    (h : UniqueTypes ispn.Status.Conditions) :
    UniqueTypes (ispn.RemoveCondition t).2.Status.Conditions := by
  unfold Infinispan.RemoveCondition
  cases hr : removeLoop t ispn.Status.Conditions with
  | none => exact h
  | some r =>
    simp only [withConditions_conditions]
    exact List.Pairwise.sublist (removeLoop_sublist t _ r hr) h

/-- C10 (uniqueness invariant of the condition set): when no two entries have types
equal up to case, the same holds after `SetCondition`, after `SetConditions` and after
`RemoveCondition`, for every argument; hence it holds for every resource reachable by
these operations from one whose condition set is empty. -/
theorem uniqueTypes_invariant :
    (∀ ispn : Infinispan, UniqueTypes ispn.Status.Conditions →
      (∀ (t : ConditionType) (s : ConditionStatus) (m : GoString),
        UniqueTypes (ispn.SetCondition t s m).2.Status.Conditions) ∧
      (∀ conds : List InfinispanCondition,
        UniqueTypes (ispn.SetConditions conds).2.Status.Conditions) ∧
      (∀ t : ConditionType, UniqueTypes (ispn.RemoveCondition t).2.Status.Conditions)) ∧
    (∀ ispn : Infinispan, Reachable ispn → UniqueTypes ispn.Status.Conditions) := by
  refine ⟨fun ispn h => ⟨fun t s m => uniqueTypes_SetCondition ispn t s m h,
    fun conds => uniqueTypes_setConditionsLoop conds false ispn h,
    fun t => uniqueTypes_RemoveCondition ispn t h⟩, ?_⟩
  intro ispn hr
  induction hr with
  | empty ispn h0 => rw [h0]; exact List.Pairwise.nil
  | set ispn t s m _ ih => exact uniqueTypes_SetCondition ispn t s m ih
  | setAll ispn conds _ ih => exact uniqueTypes_setConditionsLoop conds false ispn ih
  | remove ispn t _ ih => exact uniqueTypes_RemoveCondition ispn t ih

/-- Witness of C10: the invariant holds on a resource with the conditions `Upgrade` and
`Stopping`, and is kept by the three operations there; the resource obtained from the
empty one by `SetCondition("Upgrade")`, `SetCondition("UPGRADE")` and
`RemoveCondition("stopping")` satisfies it. -/
theorem uniqueTypes_invariant_witness :
    UniqueTypes [{ Type_ := str "Upgrade", Status := ConditionTrue },
        { Type_ := str "Stopping", Status := ConditionFalse }] ∧
      UniqueTypes (({ Status := { Conditions :=
          [{ Type_ := str "Upgrade", Status := ConditionTrue },
            { Type_ := str "Stopping", Status := ConditionFalse }] } } :
        Infinispan).SetCondition (str "UPGRADE") ConditionFalse []).2.Status.Conditions ∧
      UniqueTypes ((((({} : Infinispan).SetCondition (str "Upgrade") ConditionTrue []).2
        |>.SetCondition (str "UPGRADE") ConditionFalse []).2
        |>.RemoveCondition (str "stopping")).2).Status.Conditions :=
  have h0 : UniqueTypes ({ Status := { Conditions :=
      [{ Type_ := str "Upgrade", Status := ConditionTrue },
        { Type_ := str "Stopping", Status := ConditionFalse }] } } :
      Infinispan).Status.Conditions := by
    unfold UniqueTypes
    decide
  ⟨h0, (uniqueTypes_invariant.1 _ h0).1 (str "UPGRADE") ConditionFalse [],
    uniqueTypes_invariant.2 _
      (Reachable.remove _ _ (Reachable.set _ _ _ _ (Reachable.set _ _ _ _
        (Reachable.empty {} rfl))))⟩


/-! ## `SetConditions` -/

/-- C1 (failing input): on a resource without conditions, `SetConditions` with the two
conditions `A = True` and `B = True` applies the first one only. The call for `A`
returns true, so the right operand of `||` is not evaluated for `B`: the condition set
ends as `[A]`, whereas applying `SetCondition` for each input condition in order gives
`[A, B]`, and `GetCondition(B)` afterwards reads `False`, not `True`. -/
theorem setConditions_skips_after_first_change :
    (({} : Infinispan).SetConditions
        [{ Type_ := str "A", Status := ConditionTrue },
          { Type_ := str "B", Status := ConditionTrue }]).2.Status.Conditions =
        [{ Type_ := str "A", Status := ConditionTrue }] ∧
      (SetAllSpec ({} : Infinispan)
        [{ Type_ := str "A", Status := ConditionTrue },
          { Type_ := str "B", Status := ConditionTrue }]).Status.Conditions =
        [{ Type_ := str "A", Status := ConditionTrue },
          { Type_ := str "B", Status := ConditionTrue }] ∧
      ((({} : Infinispan).SetConditions
        [{ Type_ := str "A", Status := ConditionTrue },
          { Type_ := str "B", Status := ConditionTrue }]).2.GetCondition (str "B")).Status =
        ConditionFalse := by
  decide

/-! ## Derived names -/

/-- C3 (counterexample): a name of 52 bytes satisfies
`len(name) + len("-route-site") ≤ 63`, and `GetSiteRouteName` does not return
`name + "-route-site"` for it: it returns the first 51 bytes followed by the suffix. -/
theorem getSiteRouteName_length_52_truncated :
    ((List.replicate 52 97).length : Int) + (SiteRouteNameSuffix.length : Int)
        ≤ MaxRouteObjectNameLength ∧
      ({ Name := List.replicate 52 97 } : Infinispan).GetSiteRouteName ≠
        some (List.replicate 52 97 ++ SiteRouteNameSuffix) ∧
      ({ Name := List.replicate 52 97 } : Infinispan).GetSiteRouteName =
        some (List.replicate 51 97 ++ SiteRouteNameSuffix) := by
  decide

/-- C3 (amended): for every resource name with
`len(name) + len("-route-site") < 63`, that is every name of length 0 to 51,
`GetSiteRouteName` returns `name + "-route-site"` unchanged. -/
theorem getSiteRouteName_unchanged (ispn : Infinispan)
    (h : (ispn.Name.length : Int) + (SiteRouteNameSuffix.length : Int)
      < MaxRouteObjectNameLength) :
    ispn.GetSiteRouteName = some (ispn.Name ++ SiteRouteNameSuffix) := by
  unfold Infinispan.GetSiteRouteName
  have hlt : ¬ ((ispn.Name.length : Int) ≥
      MaxRouteObjectNameLength - (SiteRouteNameSuffix.length : Int)) := by
    omega
  simp only [hlt, if_false]

/-- Witness of C3 (amended): a name of 51 bytes, the longest one left unchanged. -/
theorem getSiteRouteName_unchanged_witness :
    ((List.replicate 51 97).length : Int) + (SiteRouteNameSuffix.length : Int)
        < MaxRouteObjectNameLength ∧
      ({ Name := List.replicate 51 97 } : Infinispan).GetSiteRouteName =
        some (List.replicate 51 97 ++ SiteRouteNameSuffix) :=
  ⟨by decide, getSiteRouteName_unchanged { Name := List.replicate 51 97 } (by decide)⟩

/-- C4 (failing input): for the resource named `a` in a namespace of 63 bytes, exposed
with type Route, the slice bound `MaxRouteObjectNameLength - len(namespace) - 2` is
`-2`, below zero, and `GetServiceExternalName` has no result: the slice expression
panics. The same happens for a namespace of 62 bytes, where the bound is `-1`. -/
theorem getServiceExternalName_panics_on_long_namespace :
    MaxRouteObjectNameLength - ((List.replicate 63 110).length : Int) - 2 = -2 ∧
      ({ Name := str "a", Namespace := List.replicate 63 110,
          Spec := { Expose := some { Type_ := ExposeTypeRoute } } } :
        Infinispan).GetServiceExternalName = none ∧
      ({ Name := str "a", Namespace := List.replicate 62 110,
          Spec := { Expose := some { Type_ := ExposeTypeRoute } } } :
        Infinispan).GetServiceExternalName = none := by
  decide


/-! ## Stability evaluator and upgrade readiness -/

theorem expectConditionStatus_eq_none (ispn : Infinispan) :
    ∀ expected : List (ConditionType × ConditionStatus),
      ispn.ExpectConditionStatus expected = none ↔
        ∀ e ∈ expected, (ispn.GetCondition e.1).Status = e.2
  | [] => by simp [Infinispan.ExpectConditionStatus]
  | (key, value) :: rest => by
    have ih := expectConditionStatus_eq_none ispn rest
    by_cases h : (ispn.GetCondition key).Status = value
    · simp [Infinispan.ExpectConditionStatus, h, ih]
    · simp [Infinispan.ExpectConditionStatus, h]

theorem opposite_ne (s : ConditionStatus) : opposite s ≠ s := by
  unfold opposite
  by_cases h : s = ConditionTrue
  · subst h
    decide
  · rw [if_neg h]
    exact fun hc => h hc.symm

/-- C7 (`ExpectConditionStatus`): it returns nil iff for every entry `(type, status)` of
the expected mapping the status of `GetCondition(type)` equals the expected status; it
returns an error iff at least one entry mismatches; and whether it returns nil is the
same for every order in which the entries of the mapping are visited. -/
theorem expectConditionStatus_nil_iff (ispn : Infinispan)
    (expected : List (ConditionType × ConditionStatus)) :
    (ispn.ExpectConditionStatus expected = none ↔
        ∀ e ∈ expected, (ispn.GetCondition e.1).Status = e.2) ∧
      ((∃ err, ispn.ExpectConditionStatus expected = some err) ↔
        ∃ e ∈ expected, (ispn.GetCondition e.1).Status ≠ e.2) ∧
      (∀ order : List (ConditionType × ConditionStatus), order.Perm expected →
        (ispn.ExpectConditionStatus order = none ↔
          ispn.ExpectConditionStatus expected = none)) := by
  refine ⟨expectConditionStatus_eq_none ispn expected, ?_, ?_⟩
  · have hn := expectConditionStatus_eq_none ispn expected
    constructor
    · rintro ⟨err, herr⟩
      by_contra hcon
      push_neg at hcon
      rw [hn.2 hcon] at herr
      cases herr
    · rintro ⟨e, he, hne⟩
      cases hr : ispn.ExpectConditionStatus expected with
      | none => exact absurd (hn.1 hr e he) hne
      | some err => exact ⟨err, rfl⟩
  · intro order hp
    rw [expectConditionStatus_eq_none, expectConditionStatus_eq_none]
    exact ⟨fun h e he => h e (hp.mem_iff.2 he), fun h e he => h e (hp.mem_iff.1 he)⟩

/-- C5 (`IsWellFormed`): it returns true iff the five expected conditions hold as read
through `GetCondition` (GracefulShutdown = False, PrelimChecksPassed = True,
Upgrade = False, Stopping = False, WellFormed = True, a condition that is absent reading
as False), in whatever order the map of `EnsureClusterStability` is visited; and
changing the status of any one of the five to its opposite value with `SetCondition`, or
any state in which one of the five reads as the opposite value, makes it false. -/
theorem isWellFormed_iff (ispn : Infinispan) :
    (ispn.IsWellFormed = true ↔
        (ispn.GetCondition ConditionGracefulShutdown).Status = ConditionFalse ∧
        (ispn.GetCondition ConditionPrelimChecksPassed).Status = ConditionTrue ∧
        (ispn.GetCondition ConditionUpgrade).Status = ConditionFalse ∧
        (ispn.GetCondition ConditionStopping).Status = ConditionFalse ∧
        (ispn.GetCondition ConditionWellFormed).Status = ConditionTrue) ∧
      (∀ order : List (ConditionType × ConditionStatus), order.Perm expectedConditions →
        (ispn.EnsureClusterStabilityIn order).isNone = ispn.IsWellFormed) ∧
      (∀ t : ConditionType, ispn.HasCondition t = false →
        (ispn.GetCondition t).Status = ConditionFalse) ∧
      (∀ e ∈ expectedConditions, (ispn.GetCondition e.1).Status = opposite e.2 →
        ispn.IsWellFormed = false) ∧
      (∀ e ∈ expectedConditions, ∀ msg : GoString,
        (ispn.SetCondition e.1 (opposite e.2) msg).2.IsWellFormed = false) := by
  have hnone : ∀ i : Infinispan, i.IsWellFormed = true ↔
      ∀ e ∈ expectedConditions, (i.GetCondition e.1).Status = e.2 := by
    intro i
    unfold Infinispan.IsWellFormed Infinispan.EnsureClusterStability
      Infinispan.EnsureClusterStabilityIn
    rw [Option.isNone_iff_eq_none, expectConditionStatus_eq_none]
  have hflip : ∀ i : Infinispan, ∀ e ∈ expectedConditions,
      (i.GetCondition e.1).Status = opposite e.2 → i.IsWellFormed = false := by
    intro i e he hop
    cases hw : i.IsWellFormed
    · rfl
    · have := (hnone i).1 hw e he
      rw [hop] at this
      exact absurd this (opposite_ne e.2)
  refine ⟨?_, ?_, ?_, hflip ispn, ?_⟩
  · rw [hnone]
    simp [expectedConditions]
  · intro order hp
    apply Bool.eq_iff_iff.2
    rw [hnone]
    unfold Infinispan.EnsureClusterStabilityIn
    rw [Option.isNone_iff_eq_none, expectConditionStatus_eq_none]
    exact ⟨fun h e he => h e (hp.mem_iff.2 he), fun h e he => h e (hp.mem_iff.1 he)⟩
  · intro t ht
    unfold Infinispan.HasCondition at ht
    rw [hasLoop_eq_isSome] at ht
    unfold Infinispan.GetCondition
    cases hg : getLoop t ispn.Status.Conditions with
    | none => rfl
    | some c => rw [hg] at ht; cases ht
  · intro e he msg
    apply hflip _ e he
    obtain ⟨c, hget, hs, _⟩ := getLoop_SetCondition ispn e.1 (opposite e.2) msg
    unfold Infinispan.GetCondition
    rw [hget]
    exact hs

/-- C6 (`IsUpgradeNeeded`): it returns true iff the Upgrade condition has status True,
the Stopping condition has status exactly False (which is also what an absent Stopping
condition reads as) and `ReplicasWantedAtRestart > 0`; when the Upgrade condition is not
True, when Stopping is not False (True, Unknown or anything else), or when
`ReplicasWantedAtRestart ≤ 0`, it returns false, whatever the rest of the resource. -/
theorem isUpgradeNeeded_iff (ispn : Infinispan) :
    (ispn.IsUpgradeNeeded = true ↔
        (ispn.GetCondition ConditionUpgrade).Status = ConditionTrue ∧
        (ispn.GetCondition ConditionStopping).Status = ConditionFalse ∧
        ispn.Status.ReplicasWantedAtRestart > 0) ∧
      ((ispn.GetCondition ConditionUpgrade).Status ≠ ConditionTrue →
        ispn.IsUpgradeNeeded = false) ∧
      ((ispn.GetCondition ConditionStopping).Status ≠ ConditionFalse →
        ispn.IsUpgradeNeeded = false) ∧
      (ispn.Status.ReplicasWantedAtRestart ≤ 0 → ispn.IsUpgradeNeeded = false) ∧
      (ispn.HasCondition ConditionStopping = false →
        (ispn.GetCondition ConditionStopping).Status = ConditionFalse) := by
  have hiff : ispn.IsUpgradeNeeded = true ↔
      (ispn.GetCondition ConditionUpgrade).Status = ConditionTrue ∧
      (ispn.GetCondition ConditionStopping).Status = ConditionFalse ∧
      ispn.Status.ReplicasWantedAtRestart > 0 := by
    unfold Infinispan.IsUpgradeNeeded Infinispan.IsUpgradeCondition Infinispan.IsConditionTrue
    by_cases h1 : (ispn.GetCondition ConditionUpgrade).Status = ConditionTrue <;>
      by_cases h2 : (ispn.GetCondition ConditionStopping).Status = ConditionFalse <;>
      by_cases h3 : ispn.Status.ReplicasWantedAtRestart > 0 <;>
      simp [h1, h2, h3]
  have hfalse : ∀ {p : Prop}, (p → ¬ (ispn.IsUpgradeNeeded = true)) → p →
      ispn.IsUpgradeNeeded = false := by
    intro p hp h
    cases hu : ispn.IsUpgradeNeeded
    · rfl
    · exact absurd hu (hp h)
  refine ⟨hiff, hfalse (fun h hu => h (hiff.1 hu).1), hfalse (fun h hu => h (hiff.1 hu).2.1),
    hfalse (fun h hu => absurd (hiff.1 hu).2.2 (by omega)), ?_⟩
  intro ht
  unfold Infinispan.HasCondition at ht
  rw [hasLoop_eq_isSome] at ht
  unfold Infinispan.GetCondition
  cases hg : getLoop ConditionStopping ispn.Status.Conditions with
  | none => rfl
  | some c => rw [hg] at ht; cases ht


/-! ## Concrete instances -/

/-- Witness of C5: `stableExample` is well formed, and setting its Upgrade condition to
True, the opposite of the expected False, makes `IsWellFormed` false. -/
theorem isWellFormed_iff_witness :
    stableExample.IsWellFormed = true ∧
      (stableExample.SetCondition ConditionUpgrade ConditionTrue []).2.IsWellFormed = false :=
  ⟨(isWellFormed_iff stableExample).1.2 (by decide),
    (isWellFormed_iff stableExample).2.2.2.2 (ConditionUpgrade, ConditionFalse)
      (by decide) []⟩

/-- Witness of C6: `upgradeExample` needs the upgrade; with the Stopping condition set to
Unknown it does not. -/
theorem isUpgradeNeeded_iff_witness :
    upgradeExample.IsUpgradeNeeded = true ∧
      (upgradeExample.SetCondition ConditionStopping ConditionUnknown []).2.IsUpgradeNeeded
        = false :=
  ⟨(isUpgradeNeeded_iff upgradeExample).1.2 (by decide),
    (isUpgradeNeeded_iff _).2.2.1 (by decide)⟩

/-- Witness of C7: on `stableExample` the expected map of the stability check gives nil,
in the order of the source and in the reverse order; the map that expects Upgrade to be
True gives an error. -/
theorem expectConditionStatus_nil_iff_witness :
    stableExample.ExpectConditionStatus expectedConditions = none ∧
      stableExample.ExpectConditionStatus expectedConditions.reverse = none ∧
      (∃ err, stableExample.ExpectConditionStatus [(ConditionUpgrade, ConditionTrue)]
        = some err) :=
  ⟨(expectConditionStatus_nil_iff stableExample expectedConditions).1.2 (by decide),
    ((expectConditionStatus_nil_iff stableExample expectedConditions).2.2
      expectedConditions.reverse (List.reverse_perm _)).2
      ((expectConditionStatus_nil_iff stableExample expectedConditions).1.2 (by decide)),
    (expectConditionStatus_nil_iff stableExample [(ConditionUpgrade, ConditionTrue)]).2.1.2
      ⟨(ConditionUpgrade, ConditionTrue), by simp, by decide⟩⟩

/-- Witness of C8: two calls of `SetCondition("Upgrade", True, "")` in a row on
`stableExample`; the first one changes the set, the second one does not. -/
theorem setCondition_idempotent_witness :
    (stableExample.SetCondition ConditionUpgrade ConditionTrue []).1 = true ∧
      ((stableExample.SetCondition ConditionUpgrade ConditionTrue []).2.SetCondition
        ConditionUpgrade ConditionTrue []).1 = false :=
  ⟨by decide, (setCondition_idempotent stableExample ConditionUpgrade ConditionTrue []).1⟩

/-- Witness of C9: on `stableExample`, setting Upgrade to True changes the sequence and
returns true; setting it to the False it already has returns false. -/
theorem setCondition_changed_exact_witness :
    (stableExample.SetCondition ConditionUpgrade ConditionTrue []).1 = true ∧
      (stableExample.SetCondition ConditionUpgrade ConditionFalse []).1 = false :=
  ⟨(setCondition_changed_exact stableExample ConditionUpgrade ConditionTrue []).1.2
      (by decide),
    (setCondition_changed_exact stableExample ConditionUpgrade ConditionFalse []).2.1.2
      (by decide)⟩

/-! ## First match: lookup, update and removal -/

theorem getLoop_eq_none_iff (t : ConditionType) (l : List InfinispanCondition) :
    getLoop t l = none ↔ ∀ e ∈ l, equals e.Type_ t = false := by
  refine ⟨getLoop_none_forall t l, ?_⟩
  induction l with
  | nil => intro _; rfl
  | cons c rest ih =>
    intro h
    have hc : equals c.Type_ t = false := h c (List.mem_cons_self c rest)
    simp only [getLoop, hc, Bool.false_eq_true, if_false]
    exact ih (fun e he => h e (List.mem_cons_of_mem c he))

theorem getLoop_split (t : ConditionType) (c : InfinispanCondition) :
    ∀ (pre post : List InfinispanCondition), (∀ e ∈ pre, equals e.Type_ t = false) →
      equals c.Type_ t = true → getLoop t (pre ++ c :: post) = some c
  | [], post, _, hc => by simp [getLoop, hc]
  | d :: pre, post, hpre, hc => by
    have hd : equals d.Type_ t = false := hpre d (List.mem_cons_self d pre)
    simp only [List.cons_append, getLoop, hd, Bool.false_eq_true, if_false]
    exact getLoop_split t c pre post (fun e he => hpre e (List.mem_cons_of_mem d he)) hc

theorem getLoop_some_split (t : ConditionType) :
    ∀ (l : List InfinispanCondition) (c : InfinispanCondition), getLoop t l = some c →
      ∃ pre post, l = pre ++ c :: post ∧ (∀ e ∈ pre, equals e.Type_ t = false) ∧
        equals c.Type_ t = true
  | [], c, h => by simp [getLoop] at h
  | d :: rest, c, h => by
    by_cases hd : equals d.Type_ t = true
    · simp only [getLoop, hd, if_true, Option.some.injEq] at h
      subst h
      exact ⟨[], rest, rfl, by simp, hd⟩
    · simp only [getLoop, hd, if_false, Bool.false_eq_true] at h
      obtain ⟨pre, post, hl, hpre, hc⟩ := getLoop_some_split t rest c h
      refine ⟨d :: pre, post, by simp [hl], ?_, hc⟩
      intro e he
      rcases List.mem_cons.1 he with rfl | hmem
      · simpa using hd
      · exact hpre e hmem

theorem setLoop_split (t : ConditionType) (s : ConditionStatus) (m : GoString)
    (c : InfinispanCondition) :
    ∀ (pre post : List InfinispanCondition), (∀ e ∈ pre, equals e.Type_ t = false) →
      equals c.Type_ t = true →
      setLoop t s m (pre ++ c :: post) =
        some ((updateEntry c s m).1, pre ++ (updateEntry c s m).2 :: post)
  | [], post, _, hc => by simp [setLoop, hc]
  | d :: pre, post, hpre, hc => by
    have hd : equals d.Type_ t = false := hpre d (List.mem_cons_self d pre)
    have ih := setLoop_split t s m c pre post
      (fun e he => hpre e (List.mem_cons_of_mem d he)) hc
    simp only [List.cons_append, setLoop, hd, Bool.false_eq_true, if_false, List.append_eq, ih]

theorem removeLoop_split (t : ConditionType) (c : InfinispanCondition) :
    ∀ (pre post : List InfinispanCondition), (∀ e ∈ pre, equals e.Type_ t = false) →
      equals c.Type_ t = true → removeLoop t (pre ++ c :: post) = some (pre ++ post)
  | [], post, _, hc => by simp [removeLoop, hc]
  | d :: pre, post, hpre, hc => by
    have hd : equals d.Type_ t = false := hpre d (List.mem_cons_self d pre)
    have ih := removeLoop_split t c pre post
      (fun e he => hpre e (List.mem_cons_of_mem d he)) hc
    simp only [List.cons_append, removeLoop, hd, Bool.false_eq_true, if_false, List.append_eq, ih]

theorem removeLoop_none (t : ConditionType) :
    ∀ l : List InfinispanCondition, (∀ e ∈ l, equals e.Type_ t = false) →
      removeLoop t l = none
  | [], _ => rfl
  | d :: rest, h => by
    have hd : equals d.Type_ t = false := h d (List.mem_cons_self d rest)
    have ih := removeLoop_none t rest (fun e he => h e (List.mem_cons_of_mem d he))
    simp only [removeLoop, hd, Bool.false_eq_true, if_false, ih]

/-- Every condition sequence either has a first entry matching `t`, or no matching
entry at all. -/
theorem first_match_or_none (t : ConditionType) (l : List InfinispanCondition) :
    (∃ pre c post, l = pre ++ c :: post ∧ (∀ e ∈ pre, equals e.Type_ t = false) ∧
        equals c.Type_ t = true) ∨
      (∀ e ∈ l, equals e.Type_ t = false) := by
  cases hg : getLoop t l with
  | none => exact Or.inr ((getLoop_eq_none_iff t l).1 hg)
  | some c =>
    obtain ⟨pre, post, hl, hpre, hc⟩ := getLoop_some_split t l c hg
    exact Or.inl ⟨pre, c, post, hl, hpre, hc⟩

/-- An entry matching `t` does not match a type `u` that is not equal to `t` up to
case. -/
theorem equals_other {t u : ConditionType} (hu : equals u t = false)
    {c : InfinispanCondition} (hc : equals c.Type_ t = true) : equals c.Type_ u = false := by
  rw [equals_congr_left hc u, equals_comm]
  exact hu

theorem getLoop_other_split (u : ConditionType) (c d : InfinispanCondition)
    (hc : equals c.Type_ u = false) (hd : equals d.Type_ u = false) :
    ∀ (pre post : List InfinispanCondition),
      getLoop u (pre ++ c :: post) = getLoop u (pre ++ d :: post)
  | [], post => by simp [getLoop, hc, hd]
  | e :: pre, post => by
    simp only [List.cons_append, getLoop, List.append_eq, getLoop_other_split u c d hc hd pre post]

theorem getLoop_other_remove (u : ConditionType) (c : InfinispanCondition)
    (hc : equals c.Type_ u = false) :
    ∀ (pre post : List InfinispanCondition),
      getLoop u (pre ++ c :: post) = getLoop u (pre ++ post)
  | [], post => by simp [getLoop, hc]
  | e :: pre, post => by
    simp only [List.cons_append, getLoop, List.append_eq, getLoop_other_remove u c hc pre post]

theorem getLoop_other_append (u : ConditionType) (c : InfinispanCondition)
    (hc : equals c.Type_ u = false) :
    ∀ l : List InfinispanCondition, getLoop u (l ++ [c]) = getLoop u l
  | [] => by simp [getLoop, hc]
  | e :: l => by
    simp only [List.cons_append, getLoop, List.append_eq, getLoop_other_append u c hc l]

/-! ## Claims on lookup, removal and the frame of `SetCondition` -/

/-- C11 (`GetCondition`): it returns the first entry of the sequence whose type equals
the requested type up to case when there is one; when there is none it returns the
synthetic condition with the requested type, status False (which is not Unknown) and an
empty message. One of the two cases always applies: the function is total. -/
theorem getCondition_first_match_or_synthetic (ispn : Infinispan) (t : ConditionType) :
    (∀ (pre post : List InfinispanCondition) (c : InfinispanCondition),
        ispn.Status.Conditions = pre ++ c :: post →
        (∀ e ∈ pre, equals e.Type_ t = false) → equals c.Type_ t = true →
        ispn.GetCondition t = c) ∧
      ((∀ e ∈ ispn.Status.Conditions, equals e.Type_ t = false) →
        ispn.GetCondition t = { Type_ := t, Status := ConditionFalse, Message := [] }) ∧
      ((∃ pre c post, ispn.Status.Conditions = pre ++ c :: post ∧
          (∀ e ∈ pre, equals e.Type_ t = false) ∧ equals c.Type_ t = true) ∨
        (∀ e ∈ ispn.Status.Conditions, equals e.Type_ t = false)) ∧
      ConditionFalse ≠ ConditionUnknown := by
  refine ⟨?_, ?_, first_match_or_none t _, by decide⟩
  · intro pre post c hl hpre hc
    unfold Infinispan.GetCondition
    rw [hl, getLoop_split t c pre post hpre hc]
  · intro h
    unfold Infinispan.GetCondition
    rw [(getLoop_eq_none_iff t _).2 h]

/-- Witness of C11: on `stableExample`, `GetCondition("wellformed")` is the second
entry, the first one that matches, and `GetCondition("Stopping")`, which no entry
matches, is the synthetic False condition. -/
theorem getCondition_first_match_or_synthetic_witness :
    stableExample.GetCondition (str "wellformed") =
        { Type_ := ConditionWellFormed, Status := ConditionTrue } ∧
      stableExample.GetCondition ConditionStopping =
        { Type_ := ConditionStopping, Status := ConditionFalse, Message := [] } :=
  ⟨(getCondition_first_match_or_synthetic stableExample (str "wellformed")).1
      [{ Type_ := ConditionPrelimChecksPassed, Status := ConditionTrue }]
      [{ Type_ := ConditionUpgrade, Status := ConditionFalse }]
      { Type_ := ConditionWellFormed, Status := ConditionTrue } rfl (by decide) (by decide),
    (getCondition_first_match_or_synthetic stableExample ConditionStopping).2.1
      (by decide)⟩

/-- C12 (`RemoveCondition` erases the first match): when no entry matches the type up to
case it returns false and leaves the resource unchanged; otherwise it returns true and
the resulting sequence is the original one without its first matching entry, every
other entry unchanged and in its original place relative to the others, so that the
length decreases by exactly one. -/
theorem removeCondition_erases_first_match (ispn : Infinispan) (t : ConditionType) :
    ((∀ e ∈ ispn.Status.Conditions, equals e.Type_ t = false) →
        ispn.RemoveCondition t = (false, ispn)) ∧
      (∀ (pre post : List InfinispanCondition) (c : InfinispanCondition),
        ispn.Status.Conditions = pre ++ c :: post →
        (∀ e ∈ pre, equals e.Type_ t = false) → equals c.Type_ t = true →
        ispn.RemoveCondition t = (true, ispn.withConditions (pre ++ post)) ∧
        (ispn.RemoveCondition t).2.Status.Conditions = pre ++ post ∧
        (ispn.RemoveCondition t).2.Status.Conditions.length + 1 =
          ispn.Status.Conditions.length) ∧
      ((∃ pre c post, ispn.Status.Conditions = pre ++ c :: post ∧
          (∀ e ∈ pre, equals e.Type_ t = false) ∧ equals c.Type_ t = true) ∨
        (∀ e ∈ ispn.Status.Conditions, equals e.Type_ t = false)) := by
  refine ⟨?_, ?_, first_match_or_none t _⟩
  · intro h
    unfold Infinispan.RemoveCondition
    rw [removeLoop_none t _ h]
  · intro pre post c hl hpre hc
    have hr : ispn.RemoveCondition t = (true, ispn.withConditions (pre ++ post)) := by
      unfold Infinispan.RemoveCondition
      rw [hl, removeLoop_split t c pre post hpre hc]
    refine ⟨hr, ?_, ?_⟩
    · rw [hr]
      rfl
    · rw [hr, hl]
      simp [withConditions_conditions]
      omega

/-- Witness of C12: on `stableExample`, `RemoveCondition("wellformed")` removes the
second entry and keeps the first and the third in order; `RemoveCondition("Stopping")`
returns false and changes nothing. -/
theorem removeCondition_erases_first_match_witness :
    stableExample.RemoveCondition (str "wellformed") =
        (true, stableExample.withConditions
          ([{ Type_ := ConditionPrelimChecksPassed, Status := ConditionTrue }] ++
            [{ Type_ := ConditionUpgrade, Status := ConditionFalse }])) ∧
      stableExample.RemoveCondition ConditionStopping = (false, stableExample) :=
  ⟨((removeCondition_erases_first_match stableExample (str "wellformed")).2.1
      [{ Type_ := ConditionPrelimChecksPassed, Status := ConditionTrue }]
      [{ Type_ := ConditionUpgrade, Status := ConditionFalse }]
      { Type_ := ConditionWellFormed, Status := ConditionTrue } rfl (by decide)
      (by decide)).1,
    (removeCondition_erases_first_match stableExample ConditionStopping).1 (by decide)⟩

/-- C14 (update or append, and order, of `SetCondition(t, s, m)`): when an entry matches
`t` up to case, whatever its status and whatever `s` is, the first matching entry is
rewritten in place to status `s` and message `m` with its type kept, every other entry
is untouched, so the length and the type at every position are unchanged; when no entry
matches, the result is the original sequence with the condition `{t, s, m}` appended at
the end. In both cases `GetCondition(u)` is unchanged for every type `u` that is not
equal to `t` up to case. -/
theorem setCondition_update_or_append (ispn : Infinispan) (t : ConditionType)
    (s : ConditionStatus) (m : GoString) :
    (∀ (pre post : List InfinispanCondition) (c : InfinispanCondition),
        ispn.Status.Conditions = pre ++ c :: post →
        (∀ e ∈ pre, equals e.Type_ t = false) → equals c.Type_ t = true →
        (ispn.SetCondition t s m).2.Status.Conditions =
            pre ++ { Type_ := c.Type_, Status := s, Message := m } :: post ∧
          (ispn.SetCondition t s m).2.Status.Conditions.length =
            ispn.Status.Conditions.length ∧
          (ispn.SetCondition t s m).2.Status.Conditions.map (fun e => e.Type_) =
            ispn.Status.Conditions.map (fun e => e.Type_)) ∧
      ((∀ e ∈ ispn.Status.Conditions, equals e.Type_ t = false) →
        (ispn.SetCondition t s m).2.Status.Conditions =
          ispn.Status.Conditions ++ [{ Type_ := t, Status := s, Message := m }]) ∧
      ((∃ pre c post, ispn.Status.Conditions = pre ++ c :: post ∧
          (∀ e ∈ pre, equals e.Type_ t = false) ∧ equals c.Type_ t = true) ∨
        (∀ e ∈ ispn.Status.Conditions, equals e.Type_ t = false)) ∧
      (∀ u : ConditionType, equals u t = false →
        (ispn.SetCondition t s m).2.GetCondition u = ispn.GetCondition u) := by
  have hupd : ∀ (pre post : List InfinispanCondition) (c : InfinispanCondition),
      ispn.Status.Conditions = pre ++ c :: post →
      (∀ e ∈ pre, equals e.Type_ t = false) → equals c.Type_ t = true →
      (ispn.SetCondition t s m).2.Status.Conditions =
        pre ++ { Type_ := c.Type_, Status := s, Message := m } :: post := by
    intro pre post c hl hpre hc
    unfold Infinispan.SetCondition
    rw [hl, setLoop_split t s m c pre post hpre hc, updateEntry_snd]
    rfl
  have happ : (∀ e ∈ ispn.Status.Conditions, equals e.Type_ t = false) →
      (ispn.SetCondition t s m).2.Status.Conditions =
        ispn.Status.Conditions ++ [{ Type_ := t, Status := s, Message := m }] := by
    intro h
    unfold Infinispan.SetCondition
    rw [(setLoop_eq_none t s m _).2 ((getLoop_eq_none_iff t _).2 h)]
    rfl
  refine ⟨?_, happ, first_match_or_none t _, ?_⟩
  · intro pre post c hl hpre hc
    have h1 := hupd pre post c hl hpre hc
    refine ⟨h1, ?_, ?_⟩
    · rw [h1, hl]
      simp
    · rw [h1, hl]
      simp
  · intro u hu
    unfold Infinispan.GetCondition
    rcases first_match_or_none t ispn.Status.Conditions with ⟨pre, c, post, hl, hpre, hc⟩ | hno
    · rw [hupd pre post c hl hpre hc, hl]
      have h1 : equals c.Type_ u = false := equals_other hu hc
      rw [getLoop_other_split u { Type_ := c.Type_, Status := s, Message := m } c h1 h1
        pre post]
    · rw [happ hno]
      have h1 : equals t u = false := by rw [equals_comm]; exact hu
      rw [getLoop_other_append u { Type_ := t, Status := s, Message := m } h1]

/-- Witness of C14: on `stableExample`, `SetCondition("WELLFORMED", False, "")` rewrites
the second entry in place and keeps its stored type, and `SetCondition("Stopping",
True, "")` appends a fourth entry. -/
theorem setCondition_update_or_append_witness :
    (stableExample.SetCondition (str "WELLFORMED") ConditionFalse []).2.Status.Conditions =
        [{ Type_ := ConditionPrelimChecksPassed, Status := ConditionTrue }] ++
          { Type_ := ConditionWellFormed, Status := ConditionFalse, Message := [] } ::
          [{ Type_ := ConditionUpgrade, Status := ConditionFalse }] ∧
      (stableExample.SetCondition ConditionStopping ConditionTrue []).2.Status.Conditions =
        stableExample.Status.Conditions ++
          [{ Type_ := ConditionStopping, Status := ConditionTrue, Message := [] }] :=
  ⟨((setCondition_update_or_append stableExample (str "WELLFORMED") ConditionFalse []).1
      [{ Type_ := ConditionPrelimChecksPassed, Status := ConditionTrue }]
      [{ Type_ := ConditionUpgrade, Status := ConditionFalse }]
      { Type_ := ConditionWellFormed, Status := ConditionTrue } rfl (by decide)
      (by decide)).1,
    (setCondition_update_or_append stableExample ConditionStopping ConditionTrue []).2.1
      (by decide)⟩

/-! ## Return value of `SetConditions` -/

theorem setConditionsLoop_fst :
    ∀ (conds : List InfinispanCondition) (changed : Bool) (ispn : Infinispan),
      (setConditionsLoop changed ispn conds).1 =
        (changed || (setAllResults ispn conds).any id)
  | [], changed, ispn => by simp [setConditionsLoop, setAllResults]
  | c :: rest, changed, ispn => by
    unfold setConditionsLoop
    cases changed with
    | true =>
      have ih := setConditionsLoop_fst rest true ispn
      simpa using ih
    | false =>
      have ih := setConditionsLoop_fst rest
        (ispn.SetCondition c.Type_ c.Status c.Message).1
        (ispn.SetCondition c.Type_ c.Status c.Message).2
      simpa [setAllResults] using ih

/-- C13 (return value of `SetConditions`): it returns true iff at least one call returns
true when `SetCondition` is applied to each input condition in order starting from the
initial set, that is the logical OR of the individual results; for an empty input list
it returns false. -/
theorem setConditions_returns_or (ispn : Infinispan) (conds : List InfinispanCondition) :
    ((ispn.SetConditions conds).1 = true ↔ true ∈ setAllResults ispn conds) ∧
      (ispn.SetConditions conds).1 = (setAllResults ispn conds).foldl (fun a b => a || b) false ∧
      (ispn.SetConditions []).1 = false := by
  have h := setConditionsLoop_fst conds false ispn
  have hor : ∀ (l : List Bool) (a : Bool),
      l.foldl (fun a b => a || b) a = (a || l.any id) := by
    intro l
    induction l with
    | nil => intro a; simp
    | cons b l ih => intro a; simp [ih, Bool.or_assoc]
  refine ⟨?_, ?_, rfl⟩
  · unfold Infinispan.SetConditions
    rw [h]
    simp
  · unfold Infinispan.SetConditions
    rw [h, hor]

/-- Witness of C13: on the empty resource the calls for `A`, `a` and `a = True` return
true, false and true, and `SetConditions` returns true; for the single condition that
`stableExample` already holds it returns false. -/
theorem setConditions_returns_or_witness :
    (({} : Infinispan).SetConditions
        [{ Type_ := str "A" }, { Type_ := str "a" },
          { Type_ := str "a", Status := ConditionTrue }]).1 = true ∧
      (stableExample.SetConditions
        [{ Type_ := ConditionUpgrade, Status := ConditionFalse }]).1 = false :=
  ⟨(setConditions_returns_or {} _).1.2 (by decide),
    by
      rw [(setConditions_returns_or stableExample _).2.1]
      decide⟩

/-! ## Route names -/

theorem slice_zero (s : GoString) (n : Nat) (h : n ≤ s.length) :
    slice s 0 (n : Int) = some (s.take n) := by
  unfold slice
  have hc : (0 : Int) ≤ 0 ∧ (0 : Int) ≤ (n : Int) ∧ (n : Int) ≤ (s.length : Int) := by
    omega
  rw [if_pos hc]
  simp

theorem siteRouteNameSuffix_length : SiteRouteNameSuffix.length = 11 := by decide

/-- The naming policy of both route name functions, on the name `name`. -/
theorem routeName_cases (name : GoString) :
    (if (name.length : Int) ≥
          MaxRouteObjectNameLength - (SiteRouteNameSuffix.length : Int) then
        match slice name 0
            (MaxRouteObjectNameLength - (SiteRouteNameSuffix.length : Int) - 1) with
        | none => none
        | some cut => some (cut ++ SiteRouteNameSuffix)
      else
        some (name ++ SiteRouteNameSuffix)) =
      some ((if 52 ≤ name.length then name.take 51 else name) ++ SiteRouteNameSuffix) := by
  rw [siteRouteNameSuffix_length]
  by_cases h : 52 ≤ name.length
  · have h1 : (name.length : Int) ≥ MaxRouteObjectNameLength - ((11 : Nat) : Int) := by
      unfold MaxRouteObjectNameLength
      omega
    have h2 : MaxRouteObjectNameLength - ((11 : Nat) : Int) - 1 = ((51 : Nat) : Int) := by
      unfold MaxRouteObjectNameLength
      omega
    rw [if_pos h1, h2, slice_zero name 51 (by omega), if_pos h]
  · have h1 : ¬ ((name.length : Int) ≥ MaxRouteObjectNameLength - ((11 : Nat) : Int)) := by
      unfold MaxRouteObjectNameLength
      omega
    rw [if_neg h1, if_neg h]

theorem getSiteRouteName_eq (ispn : Infinispan) :
    ispn.GetSiteRouteName =
      some ((if 52 ≤ ispn.Name.length then ispn.Name.take 51 else ispn.Name) ++
        SiteRouteNameSuffix) := by
  unfold Infinispan.GetSiteRouteName
  exact routeName_cases ispn.Name

theorem getRemoteSiteRouteName_eq (getWithDefault : GoString → GoString → GoString)
    (ispn : Infinispan) (locationName name : GoString)
    (h : ispn.GetRemoteSiteClusterName getWithDefault locationName = some name) :
    ispn.GetRemoteSiteRouteName getWithDefault locationName =
      some ((if 52 ≤ name.length then name.take 51 else name) ++ SiteRouteNameSuffix) := by
  unfold Infinispan.GetRemoteSiteRouteName
  rw [h]
  exact routeName_cases name

/-- C15 (name truncation, truncating branch): for every base name with
`len(base) + len("-route-site") > 63`, `GetSiteRouteName` returns the first
`63 - 11 - 1 = 51` bytes of the base followed by `"-route-site"`; and
`GetRemoteSiteRouteName` does the same with the cluster name of the remote site, as
`GetRemoteSiteClusterName` returns it, for the base. -/
theorem route_names_truncate :
    (∀ ispn : Infinispan,
      (ispn.Name.length : Int) + (SiteRouteNameSuffix.length : Int)
          > MaxRouteObjectNameLength →
        ispn.GetSiteRouteName = some (ispn.Name.take 51 ++ SiteRouteNameSuffix) ∧
          (ispn.Name.take 51).length = 51) ∧
      (∀ (getWithDefault : GoString → GoString → GoString) (ispn : Infinispan)
        (locationName name : GoString),
        ispn.GetRemoteSiteClusterName getWithDefault locationName = some name →
        (name.length : Int) + (SiteRouteNameSuffix.length : Int)
          > MaxRouteObjectNameLength →
        ispn.GetRemoteSiteRouteName getWithDefault locationName =
            some (name.take 51 ++ SiteRouteNameSuffix) ∧
          (name.take 51).length = 51) := by
  have hlen : ∀ name : GoString,
      (name.length : Int) + (SiteRouteNameSuffix.length : Int) > MaxRouteObjectNameLength →
      52 ≤ name.length := by
    intro name h
    rw [siteRouteNameSuffix_length] at h
    unfold MaxRouteObjectNameLength at h
    omega
  constructor
  · intro ispn h
    have h52 := hlen ispn.Name h
    rw [getSiteRouteName_eq, if_pos h52]
    exact ⟨rfl, by rw [List.length_take]; omega⟩
  · intro getWithDefault ispn locationName name hname h
    have h52 := hlen name h
    rw [getRemoteSiteRouteName_eq getWithDefault ispn locationName name hname, if_pos h52]
    exact ⟨rfl, by rw [List.length_take]; omega⟩

/-- Witness of C15: a resource name of 53 bytes, and the remote site of `sitesExample`,
whose cluster name has 60 bytes. -/
theorem route_names_truncate_witness :
    ({ Name := List.replicate 53 97 } : Infinispan).GetSiteRouteName =
        some (List.replicate 51 97 ++ SiteRouteNameSuffix) ∧
      sitesExample.GetRemoteSiteRouteName exampleGetWithDefault (str "remote") =
        some (List.replicate 51 99 ++ SiteRouteNameSuffix) :=
  ⟨(route_names_truncate.1 { Name := List.replicate 53 97 } (by decide)).1,
    (route_names_truncate.2 exampleGetWithDefault sitesExample (str "remote")
      (List.replicate 60 99) (by decide) (by decide)).1⟩

/-- C16 (length bound of the derived route name): for every resource name the result of
`GetSiteRouteName` is a prefix of the name followed by `"-route-site"` and has at most
63 bytes; a name of 60 bytes is cut to 51 bytes and gives a result of exactly 62 bytes;
a name of 10 bytes gives the name itself followed by `"-route-site"`, 21 bytes. -/
theorem getSiteRouteName_length_bound (ispn : Infinispan) :
    (∃ base : GoString, ispn.GetSiteRouteName = some (base ++ SiteRouteNameSuffix) ∧
        base <+: ispn.Name ∧
        ((base ++ SiteRouteNameSuffix).length : Int) ≤ MaxRouteObjectNameLength) ∧
      (ispn.Name.length = 60 →
        ispn.GetSiteRouteName = some (ispn.Name.take 51 ++ SiteRouteNameSuffix) ∧
          (ispn.Name.take 51).length = 51 ∧
          (ispn.Name.take 51 ++ SiteRouteNameSuffix).length = 62) ∧
      (ispn.Name.length = 10 →
        ispn.GetSiteRouteName = some (ispn.Name ++ SiteRouteNameSuffix) ∧
          (ispn.Name ++ SiteRouteNameSuffix).length = 21) := by
  have hs := siteRouteNameSuffix_length
  refine ⟨?_, ?_, ?_⟩
  · rw [getSiteRouteName_eq]
    by_cases h : 52 ≤ ispn.Name.length
    · refine ⟨ispn.Name.take 51, by rw [if_pos h], List.take_prefix 51 ispn.Name, ?_⟩
      rw [List.length_append, List.length_take, hs]
      unfold MaxRouteObjectNameLength
      omega
    · refine ⟨ispn.Name, by rw [if_neg h], List.prefix_refl _, ?_⟩
      rw [List.length_append, hs]
      unfold MaxRouteObjectNameLength
      omega
  · intro h
    rw [getSiteRouteName_eq, if_pos (by omega)]
    refine ⟨rfl, ?_, ?_⟩
    · rw [List.length_take]; omega
    · rw [List.length_append, List.length_take, hs]; omega
  · intro h
    rw [getSiteRouteName_eq, if_neg (by omega)]
    refine ⟨rfl, ?_⟩
    rw [List.length_append, hs]; omega

/-- Witness of C16: the names of 60 and of 10 bytes made of the letter `a`, and the
empty name. -/
theorem getSiteRouteName_length_bound_witness :
    ({ Name := List.replicate 60 97 } : Infinispan).GetSiteRouteName =
        some (List.replicate 51 97 ++ SiteRouteNameSuffix) ∧
      ({ Name := List.replicate 10 97 } : Infinispan).GetSiteRouteName =
        some (List.replicate 10 97 ++ SiteRouteNameSuffix) ∧
      ∃ base : GoString, ({} : Infinispan).GetSiteRouteName =
        some (base ++ SiteRouteNameSuffix) ∧ base <+: [] ∧
        ((base ++ SiteRouteNameSuffix).length : Int) ≤ MaxRouteObjectNameLength :=
  ⟨((getSiteRouteName_length_bound { Name := List.replicate 60 97 }).2.1 (by decide)).1,
    ((getSiteRouteName_length_bound { Name := List.replicate 10 97 }).2.2 (by decide)).1,
    (getSiteRouteName_length_bound {}).1⟩

/-! ## `NotClusterFormed` and the mismatch error -/

/-- C17 (`NotClusterFormed`): for every resource and every pair of integers it is true
iff `IsWellFormed()` is false or `pods < replicas`; so `pods < replicas` makes it true
whatever the conditions are, and a well-formed set with `pods ≥ replicas` makes it
false. -/
theorem notClusterFormed_iff (ispn : Infinispan) (pods replicas : Int) :
    (ispn.NotClusterFormed pods replicas = true ↔
        (ispn.IsWellFormed = false ∨ pods < replicas)) ∧
      (pods < replicas → ispn.NotClusterFormed pods replicas = true) ∧
      (ispn.IsWellFormed = true → pods ≥ replicas →
        ispn.NotClusterFormed pods replicas = false) := by
  unfold Infinispan.NotClusterFormed
  refine ⟨?_, ?_, ?_⟩
  · simp
  · intro h
    simp [h]
  · intro hw h
    have : ¬ pods < replicas := by omega
    simp [hw, this]

/-- Witness of C17: `stableExample` with 3 of 3 members is formed, with 2 of 3 it is
not, and `upgradeExample`, which is not well formed, is not formed with 3 of 3. -/
theorem notClusterFormed_iff_witness :
    stableExample.NotClusterFormed 3 3 = false ∧
      stableExample.NotClusterFormed 2 3 = true ∧
      upgradeExample.NotClusterFormed 3 3 = true :=
  ⟨(notClusterFormed_iff stableExample 3 3).2.2 (by decide) (by decide),
    (notClusterFormed_iff stableExample 2 3).2.1 (by decide),
    (notClusterFormed_iff upgradeExample 3 3).1.2 (Or.inl (by decide))⟩

theorem expectConditionStatus_some (ispn : Infinispan) :
    ∀ (expected : List (ConditionType × ConditionStatus)) (err : GoString),
      ispn.ExpectConditionStatus expected = some err →
      ∃ key value, (key, value) ∈ expected ∧ (ispn.GetCondition key).Status ≠ value ∧
        err = mismatchError key (ispn.GetCondition key) value
  | [], err, h => by simp [Infinispan.ExpectConditionStatus] at h
  | (key, value) :: rest, err, h => by
    by_cases hm : (ispn.GetCondition key).Status = value
    · simp only [Infinispan.ExpectConditionStatus, hm, ne_eq, not_true_eq_false,
        if_false] at h
      obtain ⟨k, v, hmem, hne, herr⟩ := expectConditionStatus_some ispn rest err h
      exact ⟨k, v, List.mem_cons_of_mem _ hmem, hne, herr⟩
    · simp only [Infinispan.ExpectConditionStatus, hm, ne_eq, not_false_eq_true,
        if_true, Option.some.injEq] at h
      exact ⟨key, value, List.mem_cons_self _ _, hm, h.symm⟩

/-- C18 (content of the mismatch error): whenever `ExpectConditionStatus` returns an
error, some entry `(key, value)` of the expected mapping has an actual status, read by
`GetCondition`, that differs from `value`, and the text of the error is
`key '<key>' has Status '<actual>', expected '<value>'`, naming that type, that actual
status and that expected status; the text is followed by ` Reason '<message>` exactly
when the message of the condition is not empty. -/
theorem expectConditionStatus_error_content (ispn : Infinispan)
    (expected : List (ConditionType × ConditionStatus)) (err : GoString)
    (h : ispn.ExpectConditionStatus expected = some err) :
    ∃ key value, (key, value) ∈ expected ∧ (ispn.GetCondition key).Status ≠ value ∧
      ((ispn.GetCondition key).Message = [] →
        err = str "key \x27" ++ key ++ str "\x27 has Status \x27" ++
          (ispn.GetCondition key).Status ++ str "\x27, expected \x27" ++ value ++
          str "\x27") ∧
      ((ispn.GetCondition key).Message ≠ [] →
        err = (str "key \x27" ++ key ++ str "\x27 has Status \x27" ++
          (ispn.GetCondition key).Status ++ str "\x27, expected \x27" ++ value ++
          str "\x27") ++ str " Reason \x27" ++ (ispn.GetCondition key).Message) := by
  obtain ⟨key, value, hmem, hne, herr⟩ := expectConditionStatus_some ispn expected err h
  refine ⟨key, value, hmem, hne, ?_, ?_⟩
  · intro hmsg
    rw [herr]
    unfold mismatchError
    rw [if_pos hmsg]
  · intro hmsg
    rw [herr]
    unfold mismatchError
    rw [if_neg hmsg]
    have hq : str "\x27 Reason \x27" = str "\x27" ++ str " Reason \x27" := by decide
    rw [hq]
    simp only [List.append_assoc]

/-- Witness of C18: `failedChecksExample`, whose PrelimChecksPassed condition is False
with the message `busy`, checked against the expected map of the stability check in the
order of the source: the error names PrelimChecksPassed, False and True and carries the
reason `busy`. -/
theorem expectConditionStatus_error_content_witness :
    failedChecksExample.ExpectConditionStatus expectedConditions =
        some (str ("key \x27PrelimChecksPassed\x27 has Status \x27False\x27, " ++
          "expected \x27True\x27 Reason \x27busy")) ∧
      ∃ key value, (key, value) ∈ expectedConditions ∧
        (failedChecksExample.GetCondition key).Status ≠ value ∧
        ((failedChecksExample.GetCondition key).Message = [] →
          str ("key \x27PrelimChecksPassed\x27 has Status \x27False\x27, " ++
              "expected \x27True\x27 Reason \x27busy")
            = str "key \x27" ++ key ++ str "\x27 has Status \x27" ++
            (failedChecksExample.GetCondition key).Status ++ str "\x27, expected \x27" ++
            value ++ str "\x27") ∧
        ((failedChecksExample.GetCondition key).Message ≠ [] →
          str ("key \x27PrelimChecksPassed\x27 has Status \x27False\x27, " ++
              "expected \x27True\x27 Reason \x27busy")
            = (str "key \x27" ++ key ++ str "\x27 has Status \x27" ++
            (failedChecksExample.GetCondition key).Status ++ str "\x27, expected \x27" ++
            value ++ str "\x27") ++ str " Reason \x27" ++
            (failedChecksExample.GetCondition key).Message) :=
  ⟨by decide,
    expectConditionStatus_error_content failedChecksExample expectedConditions _
      (by decide)⟩

/-! ## Workload names -/

/-- C21 (`GetStatefulSetName` and the names that follow the workload): it returns
`Status.StatefulSetName` when that name is not empty and the name of the resource when
it is empty; `GetConfigName` and `GetPingServiceName` are `GetStatefulSetName()`
followed by `-configuration` and by `-ping`, so they follow the recorded name after a
live migration and the name of the resource otherwise. -/
theorem getStatefulSetName_follows_migration (ispn : Infinispan) :
    (ispn.Status.StatefulSetName ≠ [] →
        ispn.GetStatefulSetName = ispn.Status.StatefulSetName ∧
        ispn.GetConfigName = ispn.Status.StatefulSetName ++ str "-configuration" ∧
        ispn.GetPingServiceName = ispn.Status.StatefulSetName ++ str "-ping") ∧
      (ispn.Status.StatefulSetName = [] →
        ispn.GetStatefulSetName = ispn.Name ∧
        ispn.GetConfigName = ispn.Name ++ str "-configuration" ∧
        ispn.GetPingServiceName = ispn.Name ++ str "-ping") ∧
      ispn.GetConfigName = ispn.GetStatefulSetName ++ str "-configuration" ∧
      ispn.GetPingServiceName = ispn.GetStatefulSetName ++ str "-ping" := by
  refine ⟨?_, ?_, rfl, rfl⟩
  · intro h
    have hs : ispn.GetStatefulSetName = ispn.Status.StatefulSetName := by
      unfold Infinispan.GetStatefulSetName
      simp only [if_pos h]
    unfold Infinispan.GetConfigName Infinispan.GetPingServiceName
    rw [hs]
    exact ⟨rfl, rfl, rfl⟩
  · intro h
    have hs : ispn.GetStatefulSetName = ispn.Name := by
      unfold Infinispan.GetStatefulSetName
      simp only [h, ne_eq, not_true_eq_false, if_false]
    unfold Infinispan.GetConfigName Infinispan.GetPingServiceName
    rw [hs]
    exact ⟨rfl, rfl, rfl⟩

/-- Witness of C21: `migratedExample`, whose workload is named `example-1`, and
`stableExample`, which records no workload name. -/
theorem getStatefulSetName_follows_migration_witness :
    migratedExample.GetConfigName = str "example-1-configuration" ∧
      migratedExample.GetPingServiceName = str "example-1-ping" ∧
      stableExample.GetConfigName = str "example-configuration" ∧
      stableExample.GetPingServiceName = str "example-ping" :=
  ⟨((getStatefulSetName_follows_migration migratedExample).1 (by decide)).2.1,
    ((getStatefulSetName_follows_migration migratedExample).1 (by decide)).2.2,
    ((getStatefulSetName_follows_migration stableExample).2.1 (by decide)).2.1,
    ((getStatefulSetName_follows_migration stableExample).2.1 (by decide)).2.2⟩

/-! ## External service name -/

theorem exposedAsRoute_iff (ispn : Infinispan) :
    ExposedAsRoute ispn ↔
      (ispn.IsExposed = true ∧ ispn.GetExposeType = some ExposeTypeRoute) := by
  unfold ExposedAsRoute Infinispan.IsExposed Infinispan.GetExposeType
  cases he : ispn.Spec.Expose with
  | none => simp
  | some e =>
    simp only [Option.some.injEq, exists_eq_left', ne_eq, decide_not, Bool.not_eq_true',
      decide_eq_false_iff_not]
    constructor
    · intro h
      rw [h]
      exact ⟨by decide, rfl⟩
    · intro h
      exact h.2

/-- C22 (truncation of the external service name): `GetServiceExternalName` returns
`name + "-external"` unless the resource is exposed with type Route and
`len(name + "-external") + len(namespace) ≥ 63`; in that case, for every namespace of at
most 61 bytes, it returns the first `63 - len(namespace) - 2` bytes of
`name + "-external"` followed by the filler `a`, and
`len(result) + len(namespace) = 62 < 63`. -/
theorem getServiceExternalName_truncates (ispn : Infinispan) :
    (¬ (ExposedAsRoute ispn ∧
          ((ispn.Name ++ str "-external").length : Int) + (ispn.Namespace.length : Int)
            ≥ MaxRouteObjectNameLength) →
        ispn.GetServiceExternalName = some (ispn.Name ++ str "-external")) ∧
      (ExposedAsRoute ispn →
        ((ispn.Name ++ str "-external").length : Int) + (ispn.Namespace.length : Int)
            ≥ MaxRouteObjectNameLength →
        ispn.Namespace.length ≤ 61 →
        ispn.GetServiceExternalName =
            some ((ispn.Name ++ str "-external").take (63 - ispn.Namespace.length - 2) ++
              str "a") ∧
          ((ispn.Name ++ str "-external").take (63 - ispn.Namespace.length - 2)).length =
            63 - ispn.Namespace.length - 2 ∧
          ((ispn.Name ++ str "-external").take (63 - ispn.Namespace.length - 2) ++
              str "a").length + ispn.Namespace.length = 62) := by
  constructor
  · intro h
    rw [exposedAsRoute_iff] at h
    unfold Infinispan.GetServiceExternalName
    cases hx : ispn.IsExposed with
    | false => simp
    | true =>
      cases ht : ispn.GetExposeType with
      | none =>
        unfold Infinispan.IsExposed at hx
        unfold Infinispan.GetExposeType at ht
        cases he : ispn.Spec.Expose with
        | none => rw [he] at hx; cases hx
        | some e => rw [he] at ht; cases ht
      | some t =>
        have hn : ¬ (t = ExposeTypeRoute ∧
            ((ispn.Name ++ str "-external").length : Int) + (ispn.Namespace.length : Int)
              ≥ MaxRouteObjectNameLength) := by
          intro hc
          apply h
          rw [hx, ht, hc.1]
          exact ⟨⟨rfl, rfl⟩, hc.2⟩
        simp only [if_true, if_neg hn]
  · intro hr hlen hns
    rw [exposedAsRoute_iff] at hr
    have hb : MaxRouteObjectNameLength - (ispn.Namespace.length : Int) - 2 =
        ((63 - ispn.Namespace.length - 2 : Nat) : Int) := by
      unfold MaxRouteObjectNameLength
      omega
    have hle : 63 - ispn.Namespace.length - 2 ≤ (ispn.Name ++ str "-external").length := by
      unfold MaxRouteObjectNameLength at hlen
      omega
    have hcode : ispn.GetServiceExternalName =
        some ((ispn.Name ++ str "-external").take (63 - ispn.Namespace.length - 2) ++
          str "a") := by
      unfold Infinispan.GetServiceExternalName
      simp only [hr.1, hr.2, if_true, true_and, if_pos hlen]
      rw [hb, slice_zero _ _ hle]
    refine ⟨hcode, ?_, ?_⟩
    · rw [List.length_take]
      omega
    · rw [List.length_append, List.length_take]
      have : (str "a").length = 1 := by decide
      omega

/-- Witness of C22: `routeExample`, a name of 60 bytes in the namespace `ns` exposed as
a route, gets a name of 60 bytes that ends with the filler; `stableExample`, which is
not exposed, gets `example-external`. -/
theorem getServiceExternalName_truncates_witness :
    routeExample.GetServiceExternalName =
        some ((List.replicate 60 97 ++ str "-external").take 59 ++ str "a") ∧
      stableExample.GetServiceExternalName = some (str "example-external") :=
  ⟨((getServiceExternalName_truncates routeExample).2 ⟨_, rfl, rfl⟩ (by decide)
      (by decide)).1,
    (getServiceExternalName_truncates stableExample).1
      (fun h => by
        obtain ⟨⟨e, he, _⟩, _⟩ := h
        cases he)⟩

/-! ## Upgrade readiness against stability -/

theorem isUpgradeNeeded_upgrade_true (ispn : Infinispan) (h : ispn.IsUpgradeNeeded = true) :
    (ispn.GetCondition ConditionUpgrade).Status = ConditionTrue := by
  unfold Infinispan.IsUpgradeNeeded Infinispan.IsUpgradeCondition
    Infinispan.IsConditionTrue at h
  by_cases hu : (ispn.GetCondition ConditionUpgrade).Status = ConditionTrue
  · exact hu
  · simp [hu] at h

/-- C23 (upgrade readiness and stability exclude each other): for every resource, if
`IsUpgradeNeeded` returns true then `IsWellFormed` returns false and
`NotClusterFormed(pods, replicas)` returns true for all `pods` and `replicas`; the
Upgrade condition is True for the first and would have to be False for the second. -/
theorem upgradeNeeded_excludes_wellFormed (ispn : Infinispan)
    (h : ispn.IsUpgradeNeeded = true) :
    ispn.IsWellFormed = false ∧
      (∀ pods replicas : Int, ispn.NotClusterFormed pods replicas = true) ∧
      (ispn.GetCondition ConditionUpgrade).Status = ConditionTrue := by
  have hu := isUpgradeNeeded_upgrade_true ispn h
  have hw : ispn.IsWellFormed = false := by
    cases hwf : ispn.IsWellFormed
    · rfl
    · unfold Infinispan.IsWellFormed Infinispan.EnsureClusterStability
        Infinispan.EnsureClusterStabilityIn at hwf
      rw [Option.isNone_iff_eq_none, expectConditionStatus_eq_none] at hwf
      have hf := hwf (ConditionUpgrade, ConditionFalse) (by decide)
      rw [hu] at hf
      exact absurd hf (by decide)
  refine ⟨hw, ?_, hu⟩
  intro pods replicas
  unfold Infinispan.NotClusterFormed
  simp [hw]

/-- Witness of C23: `upgradeExample` needs the upgrade, is not well formed, and is not
formed with 3 of 3 members. -/
theorem upgradeNeeded_excludes_wellFormed_witness :
    upgradeExample.IsUpgradeNeeded = true ∧ upgradeExample.IsWellFormed = false ∧
      upgradeExample.NotClusterFormed 3 3 = true :=
  ⟨by decide, (upgradeNeeded_excludes_wellFormed upgradeExample (by decide)).1,
    (upgradeNeeded_excludes_wellFormed upgradeExample (by decide)).2.1 3 3⟩

/-! ## Removal under the uniqueness invariant -/

theorem getCondition_of_getLoop_eq {ispn ispn2 : Infinispan} {u : ConditionType}
    (h : getLoop u ispn2.Status.Conditions = getLoop u ispn.Status.Conditions) :
    ispn2.GetCondition u = ispn.GetCondition u ∧
      ispn2.HasCondition u = ispn.HasCondition u := by
  unfold Infinispan.GetCondition Infinispan.HasCondition
  rw [hasLoop_eq_isSome, hasLoop_eq_isSome, h]
  exact ⟨rfl, rfl⟩

/-- C24 (removal is complete under the uniqueness invariant): for every resource in
whose condition set no two entries have types equal up to case, after
`RemoveCondition(t)` the call `HasCondition(t2)` is false and `GetCondition(t2)` is the
synthetic False condition for every `t2` equal to `t` up to case, while `HasCondition(u)`
and `GetCondition(u)` are unchanged for every type `u` that is not equal to `t` up to
case. -/
theorem removeCondition_complete (ispn : Infinispan) (t : ConditionType)
    (huniq : UniqueTypes ispn.Status.Conditions) :
    (∀ t2 : ConditionType, equals t2 t = true →
        (ispn.RemoveCondition t).2.HasCondition t2 = false ∧
        (ispn.RemoveCondition t).2.GetCondition t2 =
          { Type_ := t2, Status := ConditionFalse, Message := [] }) ∧
      (∀ u : ConditionType, equals u t = false →
        (ispn.RemoveCondition t).2.HasCondition u = ispn.HasCondition u ∧
        (ispn.RemoveCondition t).2.GetCondition u = ispn.GetCondition u) := by
  have hnone : getLoop t (ispn.RemoveCondition t).2.Status.Conditions = none := by
    rw [getLoop_eq_none_iff]
    rcases first_match_or_none t ispn.Status.Conditions with ⟨pre, c, post, hl, hpre, hc⟩ | hno
    · unfold Infinispan.RemoveCondition
      rw [hl, removeLoop_split t c pre post hpre hc]
      simp only [withConditions_conditions]
      intro e he
      rcases List.mem_append.1 he with hp | hp
      · exact hpre e hp
      · unfold UniqueTypes at huniq
        rw [hl, List.pairwise_append] at huniq
        have hce : equals c.Type_ e.Type_ = false :=
          (List.pairwise_cons.1 huniq.2.1).1 e hp
        rw [← equals_congr_right hc e.Type_, equals_comm]
        exact hce
    · unfold Infinispan.RemoveCondition
      rw [removeLoop_none t _ hno]
      exact hno
  constructor
  · intro t2 h2
    have hnone2 : getLoop t2 (ispn.RemoveCondition t).2.Status.Conditions = none := by
      rw [getLoop_congr h2]
      exact hnone
    unfold Infinispan.HasCondition Infinispan.GetCondition
    rw [hasLoop_eq_isSome, hnone2]
    exact ⟨rfl, rfl⟩
  · intro u hu
    have hg : getLoop u (ispn.RemoveCondition t).2.Status.Conditions =
        getLoop u ispn.Status.Conditions := by
      rcases first_match_or_none t ispn.Status.Conditions with
        ⟨pre, c, post, hl, hpre, hc⟩ | hno
      · unfold Infinispan.RemoveCondition
        rw [hl, removeLoop_split t c pre post hpre hc]
        simp only [withConditions_conditions]
        rw [getLoop_other_remove u c (equals_other hu hc) pre post]
      · unfold Infinispan.RemoveCondition
        rw [removeLoop_none t _ hno]
    have := getCondition_of_getLoop_eq hg
    exact ⟨this.2, this.1⟩

/-- Witness of C24: on `stableExample`, whose types are distinct up to case, after
`RemoveCondition("Upgrade")` the condition `UPGRADE` is absent and reads as the
synthetic False condition, and `WellFormed` reads as before. -/
theorem removeCondition_complete_witness :
    UniqueTypes stableExample.Status.Conditions ∧
      (stableExample.RemoveCondition ConditionUpgrade).2.HasCondition (str "UPGRADE")
        = false ∧
      (stableExample.RemoveCondition ConditionUpgrade).2.GetCondition ConditionWellFormed =
        stableExample.GetCondition ConditionWellFormed :=
  have h0 : UniqueTypes stableExample.Status.Conditions := by
    unfold UniqueTypes
    decide
  ⟨h0,
    ((removeCondition_complete stableExample ConditionUpgrade h0).1 (str "UPGRADE")
      (by decide)).1,
    ((removeCondition_complete stableExample ConditionUpgrade h0).2 ConditionWellFormed
      (by decide)).2⟩

/-! ## Site location names -/

theorem stringLe_total : ∀ s t : GoString, StringLe s t ∨ StringLe t s
  | [], t => Or.inl (by cases t <;> rfl)
  | a :: s, [] => Or.inr rfl
  | a :: s, b :: t => by
    unfold StringLe
    rcases Nat.lt_trichotomy a b with h | h | h
    · left
      have h2 : ¬ b < a := by omega
      simp only [stringLess, if_neg h2, if_pos h]
    · subst h
      simpa [stringLess, StringLe] using stringLe_total s t
    · right
      have h2 : ¬ a < b := by omega
      simp only [stringLess, if_neg h2, if_pos h]

theorem stringLe_trans : ∀ a b c : GoString, StringLe a b → StringLe b c → StringLe a c
  | [], _, c, _, _ => by cases c <;> rfl
  | x :: a, [], _, h1, _ => by
    unfold StringLe at h1
    simp [stringLess] at h1
  | x :: a, y :: b, [], _, h2 => by
    unfold StringLe at h2
    simp [stringLess] at h2
  | x :: a, y :: b, z :: c, h1, h2 => by
    have ih := stringLe_trans a b c
    unfold StringLe at *
    simp only [stringLess] at h1 h2 ⊢
    by_cases hyx : y < x
    · rw [if_pos hyx] at h1
      cases h1
    · by_cases hzy : z < y
      · rw [if_pos hzy] at h2
        cases h2
      · rw [if_neg hyx] at h1
        rw [if_neg hzy] at h2
        have hzx : ¬ z < x := by omega
        rw [if_neg hzx]
        by_cases hxz : x < z
        · rw [if_pos hxz]
        · rw [if_neg hxz]
          have hxy : ¬ x < y := by omega
          have hyz : ¬ y < z := by omega
          rw [if_neg hxy] at h1
          rw [if_neg hyz] at h2
          exact ih h1 h2

theorem stringLe_antisymm : ∀ s t : GoString, StringLe s t → StringLe t s → s = t
  | [], [], _, _ => rfl
  | [], b :: t, _, h2 => by
    unfold StringLe at h2
    simp [stringLess] at h2
  | a :: s, [], h1, _ => by
    unfold StringLe at h1
    simp [stringLess] at h1
  | a :: s, b :: t, h1, h2 => by
    have ih := stringLe_antisymm s t
    unfold StringLe at *
    simp only [stringLess] at h1 h2
    by_cases hba : b < a
    · rw [if_pos hba] at h1
      cases h1
    · by_cases hab : a < b
      · rw [if_pos hab] at h2
        cases h2
      · rw [if_neg hba, if_neg hab] at h1
        rw [if_neg hab, if_neg hba] at h2
        have : a = b := by omega
        rw [this, ih h1 h2]

theorem sortStrings_sorted (l : List GoString) : (sortStrings l).Sorted StringLe :=
  haveI : IsTotal GoString StringLe := ⟨stringLe_total⟩
  haveI : IsTrans GoString StringLe := ⟨stringLe_trans⟩
  List.sorted_insertionSort StringLe l

theorem sortStrings_perm (l : List GoString) : (sortStrings l).Perm l :=
  List.perm_insertionSort StringLe l

/-- The increasing arrangement of a slice of strings is unique: every sorted
rearrangement of `l` is `sortStrings l`. -/
theorem sortStrings_unique (l l2 : List GoString) (hp : l2.Perm l)
    (hs : l2.Sorted StringLe) : l2 = sortStrings l :=
  haveI : IsAntisymm GoString StringLe := ⟨stringLe_antisymm⟩
  List.eq_of_perm_of_sorted (hp.trans (sortStrings_perm l).symm) hs (sortStrings_sorted l)

theorem siteLocations_foldl (localName : GoString) :
    ∀ (locs : List InfinispanSiteLocationSpec) (acc : List GoString),
      locs.foldl
          (fun locations location =>
            if localName = location.Name then locations
            else locations ++ [location.Name])
          acc =
        acc ++ (locs.map (fun location => location.Name)).filter (fun n => n ≠ localName)
  | [], acc => by simp
  | location :: rest, acc => by
    rw [List.foldl_cons, siteLocations_foldl localName rest]
    by_cases h : localName = location.Name
    · simp [h]
    · have h2 : location.Name ≠ localName := fun hc => h hc.symm
      simp [h, h2]

theorem occurrences_filter_ne (n localName : GoString) (hn : n ≠ localName) :
    ∀ l : List GoString,
      occurrences n (l.filter (fun x => x ≠ localName)) = occurrences n l
  | [] => rfl
  | x :: l => by
    have ih := occurrences_filter_ne n localName hn l
    unfold occurrences at ih ⊢
    by_cases hx : x = localName
    · subst hx
      have hxn : ¬ x = n := fun hc => hn hc.symm
      simpa [List.filter_cons, List.countP_cons, hxn] using ih
    · simp only [List.filter_cons, ne_eq, hx, not_false_eq_true, decide_True, if_true,
        List.countP_cons, ih]

theorem occurrences_filter_self (localName : GoString) (l : List GoString) :
    occurrences localName (l.filter (fun x => x ≠ localName)) = 0 := by
  unfold occurrences
  rw [List.countP_eq_zero]
  intro a ha
  have := (List.mem_filter.1 ha).2
  simpa using this

/-- C26 (`GetSiteLocationsName`): for every sites spec the result is sorted in ascending
string order, contains the name of the local site exactly once, whether the local site
is listed among the locations or not, and contains the name of every configured
location that is not the local one as many times as it is configured. -/
theorem getSiteLocationsName_sorted_complete (ispn : Infinispan)
    (sites : InfinispanSitesSpec) (h : ispn.Spec.Service.Sites = some sites) :
    ∃ result : List GoString, ispn.GetSiteLocationsName = some result ∧
      result.Sorted StringLe ∧
      occurrences sites.Local.Name result = 1 ∧
      (∀ n : GoString, n ≠ sites.Local.Name →
        occurrences n result =
          occurrences n (sites.Locations.map (fun location => location.Name))) := by
  have hcode : ispn.GetSiteLocationsName =
      some (sortStrings
        ((sites.Locations.map (fun location => location.Name)).filter
          (fun n => n ≠ sites.Local.Name) ++ [sites.Local.Name])) := by
    unfold Infinispan.GetSiteLocationsName
    rw [h]
    simp only [siteLocations_foldl, List.nil_append]
  have hocc : ∀ n : GoString, occurrences n (sortStrings
        ((sites.Locations.map (fun location => location.Name)).filter
          (fun n => n ≠ sites.Local.Name) ++ [sites.Local.Name])) =
      occurrences n ((sites.Locations.map (fun location => location.Name)).filter
          (fun n => n ≠ sites.Local.Name)) + occurrences n [sites.Local.Name] := by
    intro n
    unfold occurrences
    rw [(sortStrings_perm _).countP_eq, List.countP_append]
  refine ⟨_, hcode, sortStrings_sorted _, ?_, ?_⟩
  · rw [hocc, occurrences_filter_self]
    simp [occurrences]
  · intro n hn
    rw [hocc, occurrences_filter_ne n _ hn]
    have hn2 : ¬ sites.Local.Name = n := fun hc => hn hc.symm
    simp [occurrences, hn2]

/-- Witness of C26: `locationsExample`, with the local site `siteB` listed twice, the
remote site `siteA` listed twice and `siteC` once, gives `siteA, siteA, siteB, siteC`. -/
theorem getSiteLocationsName_sorted_complete_witness :
    locationsExample.GetSiteLocationsName =
        some [str "siteA", str "siteA", str "siteB", str "siteC"] ∧
      ∃ result : List GoString, locationsExample.GetSiteLocationsName = some result ∧
        result.Sorted StringLe ∧
        occurrences (str "siteB") result = 1 ∧
        (∀ n : GoString, n ≠ str "siteB" →
          occurrences n result =
            occurrences n
              [str "siteC", str "siteB", str "siteA", str "siteB", str "siteA"]) :=
  ⟨by decide, getSiteLocationsName_sorted_complete locationsExample _ rfl⟩

/-! ## Case-insensitive identity over the case functions of the library -/

theorem EqualFold_refl : ∀ s : GoString, EqualFold s s = true
  | [] => rfl
  | b :: s => by simp [EqualFold, foldEqByte, EqualFold_refl s]

theorem latinEqualFold_refl (s : GoString) : latinEqualFold s s = true := by
  simp [latinEqualFold]

/-- The embedding with ASCII folding is the one over `asciiCase`. -/
theorem getLoopWith_asciiCase (t : ConditionType) :
    ∀ l : List InfinispanCondition, getLoopWith asciiCase t l = getLoop t l
  | [] => rfl
  | c :: rest => by
    simp only [getLoopWith, getLoop, getLoopWith_asciiCase t rest]
    rfl

theorem setLoopWith_asciiCase (t : ConditionType) (s : ConditionStatus) (m : GoString) :
    ∀ l : List InfinispanCondition, setLoopWith asciiCase t s m l = setLoop t s m l
  | [] => rfl
  | c :: rest => by
    simp only [setLoopWith, setLoop, setLoopWith_asciiCase t s m rest]
    rfl

theorem getConditionWith_asciiCase (ispn : Infinispan) (t : ConditionType) :
    ispn.GetConditionWith asciiCase t = ispn.GetCondition t := by
  unfold Infinispan.GetConditionWith Infinispan.GetCondition
  rw [getLoopWith_asciiCase]

theorem setConditionWith_asciiCase (ispn : Infinispan) (t : ConditionType)
    (s : ConditionStatus) (m : GoString) :
    ispn.SetConditionWith asciiCase t s m = ispn.SetCondition t s m := by
  unfold Infinispan.SetConditionWith Infinispan.SetCondition
  rw [setLoopWith_asciiCase]

theorem getLoopWith_sameLowerCase (L : CaseFunctions) {t1 t2 : ConditionType}
    (h : SameLowerCase L t1 t2) :
    ∀ l : List InfinispanCondition, getLoopWith L t1 l = getLoopWith L t2 l
  | [] => rfl
  | c :: rest => by
    unfold SameLowerCase at h
    simp only [getLoopWith, equalsWith, h, getLoopWith_sameLowerCase L h rest]

theorem getLoopWith_setLoopWith (L : CaseFunctions) (t : ConditionType)
    (s : ConditionStatus) (m : GoString) :
    ∀ (l : List InfinispanCondition) (r : Bool × List InfinispanCondition),
      setLoopWith L t s m l = some r →
      ∃ c, getLoopWith L t r.2 = some c ∧ c.Status = s ∧ c.Message = m
  | [], r, h => by simp [setLoopWith] at h
  | d :: rest, r, h => by
    by_cases hd : equalsWith L d.Type_ t = true
    · simp only [setLoopWith, hd, if_true, Option.some.injEq] at h
      subst h
      refine ⟨(updateEntry d s m).2, ?_, ?_, ?_⟩
      · simp [getLoopWith, updateEntry_snd, hd]
      · rw [updateEntry_snd]
      · rw [updateEntry_snd]
    · simp only [setLoopWith, hd, if_false, Bool.false_eq_true] at h
      cases hr : setLoopWith L t s m rest with
      | none => simp [hr] at h
      | some r2 =>
        simp only [hr, Option.some.injEq] at h
        subst h
        obtain ⟨c, hc, hs, hm⟩ := getLoopWith_setLoopWith L t s m rest r2 hr
        exact ⟨c, by simp [getLoopWith, hd, hc], hs, hm⟩

theorem getLoopWith_append_new (L : CaseFunctions) (hrefl : ∀ s, L.EqualFold s s = true)
    (t : ConditionType) (s : ConditionStatus) (m : GoString) :
    ∀ l : List InfinispanCondition, setLoopWith L t s m l = none →
      getLoopWith L t (l ++ [{ Type_ := t, Status := s, Message := m }]) =
        some { Type_ := t, Status := s, Message := m }
  | [], _ => by simp [getLoopWith, equalsWith, hrefl]
  | d :: rest, h => by
    by_cases hd : equalsWith L d.Type_ t = true
    · simp [setLoopWith, hd] at h
    · simp only [setLoopWith, hd, if_false, Bool.false_eq_true] at h
      cases hr : setLoopWith L t s m rest with
      | none =>
        simp only [List.cons_append, getLoopWith, hd, if_false, Bool.false_eq_true]
        exact getLoopWith_append_new L hrefl t s m rest hr
      | some r2 => simp [hr] at h

/-- After `SetCondition(t, s, m)` the first entry matching `t` carries `s` and `m`,
whatever the case functions are, as long as a string is equal to itself under
folding. -/
theorem getLoopWith_SetConditionWith (L : CaseFunctions)
    (hrefl : ∀ s, L.EqualFold s s = true) (ispn : Infinispan) (t : ConditionType)
    (s : ConditionStatus) (m : GoString) :
    ∃ c, getLoopWith L t (ispn.SetConditionWith L t s m).2.Status.Conditions = some c ∧
      c.Status = s ∧ c.Message = m := by
  unfold Infinispan.SetConditionWith
  cases hr : setLoopWith L t s m ispn.Status.Conditions with
  | none =>
    exact ⟨_, getLoopWith_append_new L hrefl t s m _ hr, rfl, rfl⟩
  | some r =>
    exact getLoopWith_setLoopWith L t s m _ r hr

/-- C2 (counterexample): the dotless `ı` and `I` differ only in letter case, `I` being
the upper-case form of `ı`, yet after `SetCondition("ı", True, "m")` on a resource
without conditions `GetCondition("I")` does not return status True and message `m`: it
returns the synthetic condition with status False and an empty message. `ToLower` keeps
`ı` and takes `I` to `i`, and `ı` is not equal to `i` under folding, so `equals` is
false for the pair. The embedding with ASCII folding gives the same result. -/
theorem setCondition_getCondition_dotless_i :
    DiffersOnlyInCaseWith latinCase dotlessI (str "I") ∧
      latinCase.ToUpper dotlessI = str "I" ∧
      equalsWith latinCase dotlessI (str "I") = false ∧
      (({} : Infinispan).SetConditionWith latinCase dotlessI ConditionTrue
          (str "m")).2.GetConditionWith latinCase (str "I") =
        { Type_ := str "I", Status := ConditionFalse, Message := [] } ∧
      ((({} : Infinispan).SetConditionWith latinCase dotlessI ConditionTrue
          (str "m")).2.GetConditionWith latinCase (str "I")).Status ≠ ConditionTrue ∧
      ((({} : Infinispan).SetConditionWith latinCase dotlessI ConditionTrue
          (str "m")).2.GetConditionWith latinCase (str "I")).Message ≠ str "m" ∧
      (({} : Infinispan).SetCondition dotlessI ConditionTrue (str "m")).2.GetCondition
          (str "I") =
        { Type_ := str "I", Status := ConditionFalse, Message := [] } :=
  ⟨Or.inr (by decide), by decide, by decide, by decide, by decide, by decide, by decide⟩

/-- C2 (amended, case-insensitive identity): for every resource, status `S`, message `M`
and condition types `t1`, `t2` that have the same lower-case form under `ToLower`,
`GetCondition(t2)` after `SetCondition(t1, S, M)` returns a condition with status `S`
and message `M`. This holds for any case functions under which a string is equal to
itself under folding, as it is with `strings.EqualFold`; it covers every pair of types
that differ only in the case of letters that `ToLower` takes to the same small letter,
such as `A`/`a` and `É`/`é`. -/
theorem setCondition_getCondition_sameLowerCase (L : CaseFunctions)
    (hrefl : ∀ s, L.EqualFold s s = true) (ispn : Infinispan)
    (t1 t2 : ConditionType) (S : ConditionStatus) (M : GoString)
    (h : SameLowerCase L t1 t2) :
    ((ispn.SetConditionWith L t1 S M).2.GetConditionWith L t2).Status = S ∧
      ((ispn.SetConditionWith L t1 S M).2.GetConditionWith L t2).Message = M := by
  obtain ⟨c, hget, hs, hm⟩ := getLoopWith_SetConditionWith L hrefl ispn t1 S M
  unfold Infinispan.GetConditionWith
  rw [← getLoopWith_sameLowerCase L h, hget]
  exact ⟨hs, hm⟩

/-- Witness of C2 (amended): on `accentExample`, which holds the condition `é`,
`SetCondition("É", True, "ok")` rewrites that entry and `GetCondition("é")` reads status
True and message `ok`; and with the ASCII case functions, `SetCondition("Ready", True,
"ok")` on `stableExample` is read back by `GetCondition("READY")`. -/
theorem setCondition_getCondition_sameLowerCase_witness :
    SameLowerCase latinCase capitalEAcute smallEAcute ∧
      (accentExample.SetConditionWith latinCase capitalEAcute ConditionTrue
        (str "ok")).2.Status.Conditions =
        [ { Type_ := ConditionUpgrade, Status := ConditionFalse },
          { Type_ := smallEAcute, Status := ConditionTrue, Message := str "ok" } ] ∧
      ((accentExample.SetConditionWith latinCase capitalEAcute ConditionTrue
        (str "ok")).2.GetConditionWith latinCase smallEAcute).Status = ConditionTrue ∧
      ((accentExample.SetConditionWith latinCase capitalEAcute ConditionTrue
        (str "ok")).2.GetConditionWith latinCase smallEAcute).Message = str "ok" ∧
      SameLowerCase asciiCase (str "Ready") (str "READY") ∧
      ((stableExample.SetConditionWith asciiCase (str "Ready") ConditionTrue
        (str "ok")).2.GetConditionWith asciiCase (str "READY")).Status = ConditionTrue :=
  have h1 : SameLowerCase latinCase capitalEAcute smallEAcute := by
    unfold SameLowerCase
    decide
  have h2 : SameLowerCase asciiCase (str "Ready") (str "READY") := by
    unfold SameLowerCase
    decide
  ⟨h1, by decide,
    (setCondition_getCondition_sameLowerCase latinCase latinEqualFold_refl accentExample
      capitalEAcute smallEAcute ConditionTrue (str "ok") h1).1,
    (setCondition_getCondition_sameLowerCase latinCase latinEqualFold_refl accentExample
      capitalEAcute smallEAcute ConditionTrue (str "ok") h1).2,
    h2,
    (setCondition_getCondition_sameLowerCase asciiCase EqualFold_refl stableExample
      (str "Ready") (str "READY") ConditionTrue (str "ok") h2).1⟩

end V1

namespace Controllers

open V1

/-! ## Claims on the administrative client binder -/

theorem rebindEach_store (c : Client) :
    ∀ (pods : List GoString) (store : SecretStore),
      (rebindEach c store pods).2 = store ∧
        (rebindEach c store pods).1 =
          pods.map (fun podName =>
            clientNew (curlNew { c.Config with Podname := podName } c.Kubernetes))
  | [], _ => ⟨rfl, rfl⟩
  | podName :: rest, store => by
    have ih := rebindEach_store c rest store
    unfold rebindEach
    simp only [InfinispanForPod, List.map_cons]
    exact ⟨ih.1, by rw [ih.2]⟩

/-- C19 (`InfinispanForPod` re-targets the client): for every existing client and every
new member name, the configuration of the returned handle equals the configuration of
the existing client in every field (credentials, container, namespace, protocol, port)
except `Podname`, which is the new member name; the existing client is left as it was;
the call always returns a handle; and it makes no lookup in the secret store, so the
lookups recorded there are the same after any number of such calls. -/
theorem infinispanForPod_retargets (podName : GoString) (c : Client) (store : SecretStore) :
    (InfinispanForPod podName c store).1 =
        clientNew (curlNew { c.Config with Podname := podName } c.Kubernetes) ∧
      (InfinispanForPod podName c store).1.HttpClient.Config =
        { c.Config with Podname := podName } ∧
      (InfinispanForPod podName c store).1.HttpClient.Config.Podname = podName ∧
      (InfinispanForPod podName c store).1.HttpClient.Config.Credentials =
        c.Config.Credentials ∧
      (InfinispanForPod podName c store).1.HttpClient.Config.Container =
        c.Config.Container ∧
      (InfinispanForPod podName c store).1.HttpClient.Config.Namespace =
        c.Config.Namespace ∧
      (InfinispanForPod podName c store).1.HttpClient.Config.Protocol =
        c.Config.Protocol ∧
      (InfinispanForPod podName c store).1.HttpClient.Config.Port = c.Config.Port ∧
      (InfinispanForPod podName c store).1.HttpClient.Kubernetes = c.Kubernetes ∧
      (InfinispanForPod podName c store).2.1 = c ∧
      (InfinispanForPod podName c store).2.2 = store ∧
      (∀ pods : List GoString,
        (rebindEach c store pods).2.calls = store.calls ∧
          (rebindEach c store pods).1.length = pods.length) := by
  refine ⟨rfl, rfl, rfl, rfl, rfl, rfl, rfl, rfl, rfl, rfl, rfl, ?_⟩
  intro pods
  have h := rebindEach_store c pods store
  rw [h.1, h.2]
  simp

theorem newCurlClient_error (consts : Constants) (podName : GoString) (i : Infinispan)
    (kubernetes : Kubernetes) (store : SecretStore) (cause : GoError)
    (h : store.lookup i.GetAdminSecretName i.Namespace = .error cause) :
    NewCurlClient consts podName i kubernetes store =
      (.error (errorfW
        (str "unable to retrieve operator admin identities when creating Curl client: ")
        cause),
        { store with calls := store.calls ++ [(i.GetAdminSecretName, i.Namespace)] }) := by
  unfold NewCurlClient AdminPassword
  simp only [h]

theorem newCurlClient_ok (consts : Constants) (podName : GoString) (i : Infinispan)
    (kubernetes : Kubernetes) (store : SecretStore) (pass : GoString)
    (h : store.lookup i.GetAdminSecretName i.Namespace = .ok pass) :
    NewCurlClient consts podName i kubernetes store =
      (.ok (curlNew
        { Credentials := some { Username := consts.DefaultOperatorUser, Password := pass },
          Container := consts.InfinispanContainer,
          Podname := podName,
          Namespace := i.Namespace,
          Protocol := str "http",
          Port := consts.InfinispanAdminPort } kubernetes),
        { store with calls := store.calls ++ [(i.GetAdminSecretName, i.Namespace)] }) := by
  unfold NewCurlClient AdminPassword
  simp only [h]

/-- C20 (`NewCurlClient` and `NewInfinispanForPod` fail iff the admin-secret lookup
fails): when the lookup for the name `GetAdminSecretName()` in the namespace of the
resource returns an error, both return no handle and an error that wraps that cause,
after exactly one lookup; when the lookup succeeds, both return a handle whose
configuration carries the fetched password, the given member name, the namespace of the
resource, the protocol `http` and the administrative port constant, again after exactly
one lookup. -/
theorem bind_fails_iff_lookup_fails (consts : Constants) (podName : GoString)
    (i : Infinispan) (kubernetes : Kubernetes) (store : SecretStore) :
    (∀ cause : GoError, store.lookup i.GetAdminSecretName i.Namespace = .error cause →
        (∃ err, (NewCurlClient consts podName i kubernetes store).1 = .error err ∧
          err.Unwrap = some cause ∧ cause ∈ err.chain) ∧
        (∃ err, (NewInfinispanForPod consts podName i kubernetes store).1 = .error err ∧
          cause ∈ err.chain) ∧
        (NewCurlClient consts podName i kubernetes store).2.calls =
          store.calls ++ [(i.GetAdminSecretName, i.Namespace)] ∧
        (NewInfinispanForPod consts podName i kubernetes store).2.calls =
          store.calls ++ [(i.GetAdminSecretName, i.Namespace)]) ∧
      (∀ pass : GoString, store.lookup i.GetAdminSecretName i.Namespace = .ok pass →
        (∃ handle, (NewInfinispanForPod consts podName i kubernetes store).1 = .ok handle ∧
          (NewCurlClient consts podName i kubernetes store).1 = .ok handle.HttpClient ∧
          handle.HttpClient.Config =
            { Credentials :=
                some { Username := consts.DefaultOperatorUser, Password := pass },
              Container := consts.InfinispanContainer,
              Podname := podName,
              Namespace := i.Namespace,
              Protocol := str "http",
              Port := consts.InfinispanAdminPort }) ∧
        (NewCurlClient consts podName i kubernetes store).2.calls =
          store.calls ++ [(i.GetAdminSecretName, i.Namespace)] ∧
        (NewInfinispanForPod consts podName i kubernetes store).2.calls =
          store.calls ++ [(i.GetAdminSecretName, i.Namespace)]) ∧
      ((∃ err, (NewInfinispanForPod consts podName i kubernetes store).1 = .error err) ↔
        ∃ cause, store.lookup i.GetAdminSecretName i.Namespace = .error cause) := by
  have herr : ∀ cause : GoError,
      store.lookup i.GetAdminSecretName i.Namespace = .error cause →
      NewInfinispanForPod consts podName i kubernetes store =
        (.error (errorfW (str "unable to create Infinispan client: ") (errorfW
          (str "unable to retrieve operator admin identities when creating Curl client: ")
          cause)),
          { store with calls := store.calls ++ [(i.GetAdminSecretName, i.Namespace)] }) := by
    intro cause h
    unfold NewInfinispanForPod
    simp only [newCurlClient_error consts podName i kubernetes store cause h]
  have hok : ∀ pass : GoString,
      store.lookup i.GetAdminSecretName i.Namespace = .ok pass →
      NewInfinispanForPod consts podName i kubernetes store =
        (.ok (clientNew (curlNew
          { Credentials :=
              some { Username := consts.DefaultOperatorUser, Password := pass },
            Container := consts.InfinispanContainer,
            Podname := podName,
            Namespace := i.Namespace,
            Protocol := str "http",
            Port := consts.InfinispanAdminPort } kubernetes)),
          { store with calls := store.calls ++ [(i.GetAdminSecretName, i.Namespace)] }) := by
    intro pass h
    unfold NewInfinispanForPod
    simp only [newCurlClient_ok consts podName i kubernetes store pass h]
  refine ⟨?_, ?_, ?_⟩
  · intro cause h
    rw [herr cause h, newCurlClient_error consts podName i kubernetes store cause h]
    refine ⟨⟨_, rfl, rfl, ?_⟩, ⟨_, rfl, ?_⟩, rfl, rfl⟩
    · cases cause <;> simp [errorfW, GoError.chain]
    · cases cause <;> simp [errorfW, GoError.chain]
  · intro pass h
    rw [hok pass h, newCurlClient_ok consts podName i kubernetes store pass h]
    exact ⟨⟨_, rfl, rfl, rfl⟩, rfl, rfl⟩
  · constructor
    · rintro ⟨err, he⟩
      cases hl : store.lookup i.GetAdminSecretName i.Namespace with
      | error cause => exact ⟨cause, rfl⟩
      | ok pass =>
        rw [hok pass hl] at he
        cases he
    · rintro ⟨cause, h⟩
      rw [herr cause h]
      exact ⟨_, rfl⟩

/-- Witness of C19: `exampleClient`, bound to `pod-0`, re-targeted to `pod-1`, and then
to ten members in a row, with the lookups of `exampleStore` unchanged. -/
theorem infinispanForPod_retargets_witness :
    (InfinispanForPod (str "pod-1") exampleClient exampleStore).1.HttpClient.Config =
        { exampleClient.Config with Podname := str "pod-1" } ∧
      (InfinispanForPod (str "pod-1") exampleClient exampleStore).1.HttpClient.Config.Credentials
        = some { Username := str "operator", Password := str "secret" } ∧
      (rebindEach exampleClient exampleStore (List.replicate 10 (str "pod-1"))).2.calls =
        exampleStore.calls :=
  ⟨(infinispanForPod_retargets (str "pod-1") exampleClient exampleStore).2.1,
    (infinispanForPod_retargets (str "pod-1") exampleClient exampleStore).2.2.2.1,
    ((infinispanForPod_retargets (str "pod-1") exampleClient exampleStore).2.2.2.2.2.2.2.2.2.2.2
      (List.replicate 10 (str "pod-1"))).1⟩

/-- Witness of C20: binding `pod-0` of `boundExample` against `emptyStore` fails with an
error that wraps `NotFound`, and against `exampleStore` gives a handle that carries the
password `secret`; each after one lookup. -/
theorem bind_fails_iff_lookup_fails_witness :
    (∃ err, (NewInfinispanForPod exampleConstants (str "pod-0") boundExample {}
          emptyStore).1 = .error err ∧
        GoError.leaf (str "NotFound") ∈ err.chain) ∧
      (NewInfinispanForPod exampleConstants (str "pod-0") boundExample {}
          emptyStore).2.calls = [(str "example-generated-operator-secret", str "ns")] ∧
      (∃ handle, (NewInfinispanForPod exampleConstants (str "pod-0") boundExample {}
          exampleStore).1 = .ok handle ∧
        handle.HttpClient.Config.Credentials =
          some { Username := str "operator", Password := str "secret" }) :=
  ⟨((bind_fails_iff_lookup_fails exampleConstants (str "pod-0") boundExample {}
        emptyStore).1 (.leaf (str "NotFound")) rfl).2.1,
    ((bind_fails_iff_lookup_fails exampleConstants (str "pod-0") boundExample {}
        emptyStore).1 (.leaf (str "NotFound")) rfl).2.2.2,
    by
      obtain ⟨handle, h1, _, h3⟩ :=
        ((bind_fails_iff_lookup_fails exampleConstants (str "pod-0") boundExample {}
          exampleStore).2.1 (str "secret") rfl).1
      exact ⟨handle, h1, by rw [h3]; rfl⟩⟩

/-- C25 (failing input): when the pod listing for the StatefulSet of `boundExample`
succeeds with zero pods, `NewInfinispan` has no result: the index expression
`podList.Items[0]` is out of range and panics, where the claim has the function return
a client or an error. On the other outcomes the function does what the claim says: a
listing error is returned as it is, without any lookup in the secret store, and a
listing with the pods `pod-0` and `pod-1` gives the result of `NewInfinispanForPod` for
`pod-0`. -/
theorem newInfinispan_panics_without_pods :
    NewInfinispan exampleConstants noPods boundExample {} exampleStore = none ∧
      NewInfinispan exampleConstants failingPods boundExample {} exampleStore =
        some (.error (.leaf (str "Forbidden")), exampleStore) ∧
      NewInfinispan exampleConstants twoPods boundExample {} exampleStore =
        some (NewInfinispanForPod exampleConstants (str "pod-0") boundExample {}
          exampleStore) :=
  ⟨rfl, rfl, rfl⟩

end Controllers
